import Mathlib

/-!
Verification of the C++ code generator in `pydantic_bind/cpp_generator.py`.

The generator translates reflected Python data-model declarations (dataclasses /
pydantic models with typed, possibly defaulted fields, enums, inheritance) into
C++ struct definitions plus pybind11 binding-registration code.

This file gives a shallow embedding of the generator:
* Python string operations are re-implemented over `List Char` so that every
  definition evaluates inside the kernel (`pyReplace`, `pySplit`, ...).
* Python `set` objects are modelled as duplicate-free `List String` values in
  first-insertion order; all uses in the generator either test membership,
  take unions, or sort the contents before emission, so the list order is
  never observable in the emitted artifacts except through `sorted`.
* Exceptions (`RuntimeError`, `TypeError`) are modelled with `Except String`.
* The cosmetic line re-wrapping done by `textwrap.TextWrapper` is presentation
  only and is not modelled; every emitted fragment is kept as structured data
  (name, type text, default literal, ...) together with `text` functions that
  produce the exact f-string contents assembled by the source.
-/

namespace PydanticBind

/-! ## Python primitive semantics -/

/-- Python `s.replace(pat, rep)` for a non-empty pattern, fuel-based so that it
is structurally recursive (the generator only replaces the non-empty patterns
`"std::"`, `"."`, `"::"` and `".h"`). -/
def replaceFuel (pat rep : List Char) : Nat → List Char → List Char
  | 0, l => l
  | _ + 1, [] => []
  | fuel + 1, c :: rest =>
      if pat ≠ [] ∧ pat.isPrefixOf (c :: rest) then
        rep ++ replaceFuel pat rep fuel (rest.drop (pat.length - 1))
      else c :: replaceFuel pat rep fuel rest

def pyReplace (s pat rep : String) : String :=
  ⟨replaceFuel pat.data rep.data s.data.length s.data⟩

/-- Python `s.startswith(pre)`. -/
def pyStartsWith (s pre : String) : Bool := pre.data.isPrefixOf s.data

/-- Python `s.endswith(suf)`. -/
def pyEndsWith (s suf : String) : Bool := suf.data.isSuffixOf s.data

def infixAux (pat : List Char) : List Char → Bool
  | [] => pat.isEmpty
  | c :: rest => pat.isPrefixOf (c :: rest) || infixAux pat rest

/-- Python `needle in hay` for strings (substring containment). -/
def pyContains (hay needle : String) : Bool := infixAux needle.data hay.data

def splitOnCharAux (c : Char) : List Char → List Char → List String
  | acc, [] => [⟨acc.reverse⟩]
  | acc, d :: rest =>
      if d = c then ⟨acc.reverse⟩ :: splitOnCharAux c [] rest
      else splitOnCharAux c (d :: acc) rest

/-- Python `s.split(c)` for a single-character separator. -/
def pySplit (s : String) (c : Char) : List String := splitOnCharAux c [] s.data

def splitOnStrFuel (sep : List Char) : Nat → List Char → List Char → List String
  | 0, acc, l => [⟨acc.reverse ++ l⟩]
  | _ + 1, acc, [] => [⟨acc.reverse⟩]
  | fuel + 1, acc, c :: rest =>
      if sep ≠ [] ∧ sep.isPrefixOf (c :: rest) then
        ⟨acc.reverse⟩ :: splitOnStrFuel sep fuel [] ((c :: rest).drop sep.length)
      else splitOnStrFuel sep fuel (c :: acc) rest

/-- Python `s.split(sep)` for a non-empty multi-character separator
(the generator splits on `"::"`). -/
def pySplitStr (s sep : String) : List String :=
  splitOnStrFuel sep.data (s.data.length + 1) [] s.data

/-- Python `sep.join(parts)`. -/
def pyJoin (sep : String) : List String → String
  | [] => ""
  | [x] => x
  | x :: xs => x ++ sep ++ pyJoin sep xs

/-- Python `s.strip(c)` for a single strip character: removes every leading and
trailing occurrence of `c`. -/
def pyStrip (s : String) (c : Char) : String :=
  ⟨((s.data.dropWhile (· = c)).reverse.dropWhile (· = c)).reverse⟩

def pyUpperChar (c : Char) : Char :=
  if 'a' ≤ c ∧ c ≤ 'z' then Char.ofNat (c.toNat - 32) else c

/-- Python `s.upper()` (ASCII, which is all the generator feeds it). -/
def pyUpper (s : String) : String := ⟨s.data.map pyUpperChar⟩

/-- Python string comparison `a < b` (lexicographic on code points). -/
def strLtAux : List Char → List Char → Bool
  | [], [] => false
  | [], _ :: _ => true
  | _ :: _, [] => false
  | a :: as, b :: bs =>
      if a.toNat < b.toNat then true
      else if b.toNat < a.toNat then false
      else strLtAux as bs

def pyStrLt (a b : String) : Bool := strLtAux a.data b.data

def pyStrLe (a b : String) : Bool := !(pyStrLt b a)

def pyOrderedInsert (x : String) : List String → List String
  | [] => [x]
  | y :: ys => if pyStrLe x y then x :: y :: ys else y :: pyOrderedInsert x ys

/-- Python `sorted(xs)` for strings (insertion sort; `sorted` is stable, and
the inputs the generator sorts are duplicate-free sets, so any correct sort
agrees). -/
def pySorted : List String → List String
  | [] => []
  | x :: xs => pyOrderedInsert x (pySorted xs)

/-- Python `list.insert(i, a)` for a non-negative index: clamps to an append
when `i` is at least the length, which the generator relies on when inserting
into the shorter member-only lists at a position computed from the full list. -/
def listInsert {α : Type} (xs : List α) (i : Nat) (a : α) : List α :=
  xs.take i ++ a :: xs.drop i

/-- Decidable equality for `Except`, used to evaluate the embedded generator
on concrete inputs with `decide`. -/
instance {ε α : Type} [DecidableEq ε] [DecidableEq α] : DecidableEq (Except ε α) := fun
  | .error a, .error b =>
      match decEq a b with
      | isTrue h => isTrue (h ▸ rfl)
      | isFalse h => isFalse (fun hh => by cases hh; exact h rfl)
  | .error _, .ok _ => isFalse (fun h => by cases h)
  | .ok _, .error _ => isFalse (fun h => by cases h)
  | .ok a, .ok b =>
      match decEq a b with
      | isTrue h => isTrue (h ▸ rfl)
      | isFalse h => isFalse (fun hh => by cases hh; exact h rfl)

/-! ## Python `set` semantics

A Python `set` is modelled as a duplicate-free `List String` in first-insertion
order.  `setIns` is element insertion, `setUnionL` is `s.union(iterable)` over a
list, and `setUnionStr` is `s.union(string)` — Python iterates a string
argument character by character, which is exactly what the source does (by
accident) in the mapping branch of `cpp_type`. -/

def setIns (s : List String) (x : String) : List String :=
  if x ∈ s then s else s ++ [x]

def setUnionL (s t : List String) : List String := t.foldl setIns s

def setUnionStr (s : List String) (t : String) : List String :=
  t.data.foldl (fun acc c => setIns acc ⟨[c]⟩) s

/-! ## Default values (`cpp_default`, source lines 45-64)

`PyDefault` models the runtime value captured as a field default.  `missing`
stands for both absence sentinels `dataclasses.MISSING` and
`PydanticUndefined` (source line 46).  Python `float` default values are not
modelled (no claim touches them); `intV` covers the numeric branch.  -/

inductive PyDefault where
  | missing
  | noneV
  | boolV (b : Bool)
  | strV (s : String)
  | enumV (enumName member : String)
  | intV (n : Int)
  | listV (xs : List PyDefault)
  | setV (xs : List PyDefault)
  | tupleV (xs : List PyDefault)
  | dictV (xs : List (PyDefault × PyDefault))

def natDigits : Nat → Nat → List Char
  | 0, _ => []
  | _ + 1, 0 => []
  | fuel + 1, n => natDigits fuel (n / 10) ++ [Char.ofNat (48 + n % 10)]

/-- Python `str(n)` for an integer (decimal, `-` sign, no leading zeros). -/
def intLit : Int → String
  | .ofNat m => if m = 0 then "0" else ⟨natDigits (m + 1) m⟩
  | .negSucc m => "-" ++ ⟨natDigits (m + 2) (m + 1)⟩

mutual

/-- Source `cpp_default` (lines 45-64): `none` models returning Python `None`
for the absence sentinels; every other case returns the C++ literal text.
Collection elements are never the absence sentinel in Python, so the `getD ""`
in the list helpers is never exercised on real inputs. -/
def cpp_default : PyDefault → Option String
  | .missing => none
  | .noneV => some "std::nullopt"
  | .boolV b => some (if b then "true" else "false")
  | .strV s => some ("\"" ++ s ++ "\"")
  | .enumV en m => some (en ++ "::" ++ m)
  | .intV n => some (intLit n)
  | .listV xs => some ("\x7b" ++ pyJoin ", " (cpp_default_list xs) ++ "\x7d")
  | .setV xs => some ("\x7b" ++ pyJoin ", " (cpp_default_list xs) ++ "\x7d")
  | .tupleV xs => some ("\x7b" ++ pyJoin ", " (cpp_default_list xs) ++ "\x7d")
  | .dictV xs => some ("\x7b " ++ pyJoin ", " (cpp_default_pairs xs) ++ " \x7d")
termination_by structural d => d

def cpp_default_list : List PyDefault → List String
  | [] => []
  | x :: xs => (cpp_default x).getD "" :: cpp_default_list xs
termination_by structural l => l

def cpp_default_pairs : List (PyDefault × PyDefault) → List String
  | [] => []
  | (k, v) :: xs =>
      ("\x7b" ++ (cpp_default k).getD "" ++ ", " ++ (cpp_default v).getD "" ++ "\x7d")
        :: cpp_default_pairs xs
termination_by structural l => l

end

/-- Python truthiness of the `default` local in `class_attrs`: `None` and the
empty string are falsy, everything else truthy. -/
def pyTruthy : Option String → Bool
  | none => false
  | some s => !s.data.isEmpty

/-- Python `default or ''` (source line 192). -/
def pyOrEmpty : Option String → String
  | none => ""
  | some s => if s.data.isEmpty then "" else s

/-! ## Type descriptors (`cpp_type`, source lines 67-143)

`PyType` models a field annotation as the `cpp_type` dispatch observes it via
`get_origin` / `get_args`:
* the eight base types of `__base_type_mappings` (lines 18-27);
* `noneT` is `type(None)` and `ellipsis` is the `...` object, both of which
  occur only inside `get_args` tuples;
* `enumRef module name` / `modelRef module name` are an `Enum` subclass and a
  `PybindDataclass`/`PybindBaseModel` subclass with `__module__ == module`;
* `union args` covers `typing.Union` and `types.UnionType`; Python's `typing`
  normalizes `Optional[X]` to `Union[X, None]` at construction, so the
  `origin is Optional` branch at source lines 115-117 is unreachable and
  `Optional[X]` is represented here as `union [X, noneT]` (see `pyOptional`);
* `pyList args` covers the `list` / `Sequence` origins (bare `list` is
  `pyList []`), and similarly `pySet`, `pyTuple`, `pyDict` (the latter also
  covering the `Mapping` origin, which takes the same branch). -/

inductive PyType where
  | boolT
  | floatT
  | intT
  | strT
  | dateT
  | datetimeT
  | timeT
  | timedeltaT
  | noneT
  | ellipsis
  | enumRef (module name : String)
  | modelRef (module name : String)
  | union (args : List PyType)
  | pyList (args : List PyType)
  | pySet (args : List PyType)
  | pyTuple (args : List PyType)
  | pyDict (args : List PyType)

/-- `__base_type_mappings` (source lines 18-27). -/
def base_type_mapping : PyType → Option (String × Option String)
  | .boolT => some ("bool", none)
  | .floatT => some ("double", none)
  | .intT => some ("int", none)
  | .strT => some ("std::string", some "<string>")
  | .dateT => some ("std::chrono::system_clock::time_point", some "<chrono>")
  | .datetimeT => some ("std::chrono::system_clock::time_point", some "<chrono>")
  | .timeT => some ("std::chrono::system_clock::time_point", some "<chrono>")
  | .timedeltaT => some ("std::chrono::duration", some "<chrono>")
  | _ => none

/-- Python `repr` of the bare collection classes, as interpolated into the
"non parameterised collection" error message. -/
def bareRepr : PyType → String
  | .pyList _ => "<class 'list'>"
  | .pySet _ => "<class 'set'>"
  | .pyTuple _ => "<class 'tuple'>"
  | .pyDict _ => "<class 'dict'>"
  | _ => ""

/-- A bare (unparameterized) collection annotation. -/
def isBareContainer : PyType → Bool
  | .pyList [] => true
  | .pySet [] => true
  | .pyTuple [] => true
  | .pyDict [] => true
  | _ => false

def hasEllipsis : List PyType → Bool
  | [] => false
  | .ellipsis :: _ => true
  | _ :: rest => hasEllipsis rest

/-- Result of `cpp_type`: (type text, includes, usings), with the two Python
sets modelled as duplicate-free lists. -/
abbrev CppRes := String × List String × List String

/-- The tail of the inner `args_type` helper (source lines 78-92) after its
two loops: given the `optional` flag, the resolved argument type texts, and
the unions of their includes/usings, build the final result.  The initial
include set `{f"<{base_type.replace('std::', '')}>"}` and the conditional
`<optional>` element are added here. -/
def args_type_finish (base_type : String) (r : Bool × List String × List String × List String) :
    CppRes :=
  let (optional, arg_types, arg_includes, arg_usings) := r
  let all_arg_includes :=
    setUnionL (if optional then ["<" ++ pyReplace base_type "std::" "" ++ ">", "<optional>"]
               else ["<" ++ pyReplace base_type "std::" "" ++ ">"]) arg_includes
  let args_cpp_type :=
    match arg_types with
    | [t] => t
    | ts => base_type ++ "<" ++ pyJoin ", " ts ++ ">"
  (if optional then "std::optional<" ++ args_cpp_type ++ ">" else args_cpp_type,
   all_arg_includes, arg_usings)

mutual

/-- Source `cpp_type` (lines 67-143), one arm per reachable dispatch case.
Notes on fidelity:
* base types return their mapped text and include (lines 96-98);
* `noneT` falls through to the "Can only use builtins ..." `RuntimeError`
  (line 113); `ellipsis` is not a class, so `issubclass` at line 109 raises
  `TypeError` — both are `.error`;
* a bare collection raises at line 108 (`if args:` at line 105 can never see
  a non-empty `args` when `get_origin` returned `None`);
* `enumRef` / `modelRef` return the bare name, the header include derived
  from the declaring module, and the namespaced using (lines 109-111);
* `union` resolves via `args_type "std::variant"` (line 119); the fused
  `cpp_args_loop` below performs the optional-stripping first loop and the
  resolution second loop of `args_type` in one pass, which preserves both the
  resulting lists and the first raised error;
* `tuple` handles the `Ellipsis` special cases (lines 126-136);
* `pyDict` is the mapping branch (lines 137-141) and faithfully reproduces
  its two defects: the value type is resolved from `args[0]` — the key —
  again, and `.union("unordered_map", )` is a one-argument `set.union` call
  whose string argument is iterated character by character. -/
def cpp_type : PyType → Except String CppRes
  | .boolT => .ok ("bool", [], [])
  | .floatT => .ok ("double", [], [])
  | .intT => .ok ("int", [], [])
  | .strT => .ok ("std::string", ["<string>"], [])
  | .dateT => .ok ("std::chrono::system_clock::time_point", ["<chrono>"], [])
  | .datetimeT => .ok ("std::chrono::system_clock::time_point", ["<chrono>"], [])
  | .timeT => .ok ("std::chrono::system_clock::time_point", ["<chrono>"], [])
  | .timedeltaT => .ok ("std::chrono::duration", ["<chrono>"], [])
  | .noneT =>
      .error "Can only use builtins, datetime or BaseModel-derived types, not <class 'NoneType'>"
  | .ellipsis => .error "TypeError: issubclass() arg 1 must be a class"
  | .enumRef module name =>
      .ok (name, ["\"" ++ pyReplace module "." "/" ++ ".h\""],
           [pyJoin "::" ((pySplit module '.').dropLast ++ [name])])
  | .modelRef module name =>
      .ok (name, ["\"" ++ pyReplace module "." "/" ++ ".h\""],
           [pyJoin "::" ((pySplit module '.').dropLast ++ [name])])
  | .union args =>
      match cpp_args_loop args with
      | .error e => .error e
      | .ok r => .ok (args_type_finish "std::variant" r)
  | .pyList [] => .error "Cannot use non parameterised collection <class 'list'> as a type"
  | .pyList (a :: _) =>
      match cpp_type a with
      | .error e => .error e
      | .ok (t, includes, usings) =>
          .ok ("std::vector<" ++ t ++ ">", setUnionL includes ["vector"], usings)
  | .pySet [] => .error "Cannot use non parameterised collection <class 'set'> as a type"
  | .pySet (a :: _) =>
      match cpp_type a with
      | .error e => .error e
      | .ok (t, includes, usings) =>
          .ok ("std::set<" ++ t ++ ">", setUnionL includes ["set"], usings)
  | .pyTuple [] => .error "Cannot use non parameterised collection <class 'tuple'> as a type"
  | .pyTuple (a :: rest) =>
      if hasEllipsis (a :: rest) then
        match a :: rest with
        | [a2, .ellipsis] =>
            match cpp_type a2 with
            | .error e => .error e
            | .ok (t, includes, usings) =>
                .ok ("std::vector<" ++ t ++ ">", setUnionL includes ["vector"], usings)
        | _ => .error "Cannot support Ellipsis/Any as a tuple parameter type"
      else
        match cpp_args_loop (a :: rest) with
        | .error e => .error e
        | .ok r => .ok (args_type_finish "std::tuple" r)
  | .pyDict [] => .error "Cannot use non parameterised collection <class 'dict'> as a type"
  | .pyDict (k :: _) =>
      match cpp_type k with
      | .error e => .error e
      | .ok (key_type, key_includes, key_usings) =>
          match cpp_type k with
          | .error e => .error e
          | .ok (value_type, value_includes, value_usings) =>
              .ok ("std::unordered_map<" ++ key_type ++ ", " ++ value_type ++ ">",
                   setUnionStr (setUnionL key_includes value_includes) "unordered_map",
                   setUnionL key_usings value_usings)
termination_by structural t => t

/-- The two loops of `args_type` (source lines 69-88) fused into one pass:
an argument equal to `type(None)` sets the `optional` flag and is skipped,
every other argument is resolved and contributes its type text (in order) and
its includes/usings (unioned).  Fusing is sound because the first loop is a
pure partition that preserves the relative order of the non-`None` arguments,
so error order and list order coincide with the source's two-loop form. -/
def cpp_args_loop : List PyType → Except String (Bool × List String × List String × List String)
  | [] => .ok (false, [], [], [])
  | .noneT :: rest =>
      match cpp_args_loop rest with
      | .error e => .error e
      | .ok (_, ts, incs, us) => .ok (true, ts, incs, us)
  | a :: rest =>
      match cpp_type a with
      | .error e => .error e
      | .ok (t, ai, au) =>
          match cpp_args_loop rest with
          | .error e => .error e
          | .ok (o, ts, incs, us) => .ok (o, t :: ts, setUnionL ai incs, setUnionL au us)
termination_by structural l => l

end

/-- `Optional[X]`: Python's `typing` module normalizes it to `Union[X, None]`
at annotation construction time, so this is what `cpp_type` receives. -/
def pyOptional (t : PyType) : PyType := .union [t, .noneT]

/-- The move test of `class_attrs` (source lines 171-174):
`field_type not in __no_move_types and not issubclass(field_type, Enum)`,
with a `TypeError` from `issubclass` caught and mapped to `move = False`.
* the eight `__no_move_types` members (lines 29-31) give `False`;
* an `Enum` subclass gives `False`;
* `str`, `type(None)` and the generated model classes are plain classes not in
  the set, giving `True`;
* a parameterized generic (`list[int]`, `int | None`, ...) is not a class, so
  `issubclass` raises `TypeError` and the `except` arm gives `False`; a bare
  collection class would give `False` too (`issubclass(list, Enum)` is false
  but `list ∈ __no_move_types` is false... it is not in the set, so Python
  would give `True` — that path is unreachable because `cpp_type` has already
  raised on a bare collection before `move` is computed); `ellipsis` likewise
  only occurs after `cpp_type` has raised. -/
def field_move : PyType → Bool
  | .boolT | .floatT | .intT | .dateT | .datetimeT | .timeT | .timedeltaT => false
  | .enumRef _ _ => false
  | .strT | .noneT | .modelRef _ _ => true
  | .union _ | .pyList _ | .pySet _ | .pyTuple _ | .pyDict _ | .ellipsis => false

/-! ## Records (`field_info_iter` and `class_attrs`, source lines 36-42 and
146-198)

`PyClass` models a `PybindDataclass` / `PybindBaseModel` subclass as the
generator reflects on it:
* `fields` is exactly the sequence yielded by `field_info_iter` — for both
  dataclasses (`dataclasses.fields`) and pydantic models (`model_fields`)
  this includes fields inherited from base classes, in MRO order;
* `bases` is the filtered base list of source lines 161-162 (the strict
  `PybindDataclass`/`PybindBaseModel` subclasses among `__bases__`);
* `frozen` is `__dataclass_params__.frozen` / `model_config.get("frozen")`. -/

structure PyField where
  name : String
  type : PyType
  default : PyDefault

inductive PyClass where
  | mk (name : String) (fields : List PyField) (bases : List PyClass) (frozen : Bool)

def PyClass.name : PyClass → String
  | .mk n _ _ _ => n

def PyClass.fields : PyClass → List PyField
  | .mk _ f _ _ => f

def PyClass.bases : PyClass → List PyClass
  | .mk _ _ b _ => b

def PyClass.frozen : PyClass → Bool
  | .mk _ _ _ fz => fz

/-- Source line 163: the set of field names provided by the (filtered) bases,
`set(chain.from_iterable((n for n, _, _ in field_info_iter(b)) for b in bases))`. -/
def base_field_names (bs : List PyClass) : List String :=
  bs.foldl (fun s b => setUnionL s (b.fields.map PyField.name)) []

/-! Structured forms of the string fragments built inside the `class_attrs`
loop.  Each structure stores the interpolated pieces of one f-string from the
source, and its `text` function assembles exactly that f-string. -/

/-- One `constructor_args` entry: `f"{typ} {name + default_suffix}"` (line 186). -/
structure CtorArg where
  typ : String
  name : String
  suffix : String
  deriving DecidableEq, Repr

def CtorArg.text (a : CtorArg) : String := a.typ ++ " " ++ a.name ++ a.suffix

/-- One `kwargs` entry: `f'py::arg("{name}")' + default_suffix` (line 187). -/
structure KwArg where
  name : String
  suffix : String
  deriving DecidableEq, Repr

def KwArg.text (a : KwArg) : String := "py::arg(\"" ++ a.name ++ "\")" ++ a.suffix

/-- One `init_args` entry:
`f"{name}({name if not move else f'std::move({name})'})"` (line 191). -/
structure InitArg where
  name : String
  move : Bool
  deriving DecidableEq, Repr

def InitArg.text (a : InitArg) : String :=
  a.name ++ "(" ++ (if a.move then "std::move(" ++ a.name ++ ")" else a.name) ++ ")"

/-- One `default_init_args` entry: `f"{name}({default or ''})"` (line 192). -/
structure DefInitArg where
  name : String
  value : String
  deriving DecidableEq, Repr

def DefInitArg.text (a : DefInitArg) : String := a.name ++ "(" ++ a.value ++ ")"

/-- One `struct_members` entry: `f"{typ} {name};"` (line 193). -/
structure Member where
  typ : String
  name : String
  deriving DecidableEq, Repr

def Member.text (a : Member) : String := a.typ ++ " " ++ a.name ++ ";"

/-- One `pydantic_attrs` entry:
`f'{pydantic_def}("{name}", &{model_class.__name__}::{name})'` (line 194),
where `reg` is `.def_readonly` for a frozen record and `.def_readwrite`
otherwise (line 158). -/
structure Accessor where
  reg : String
  cls : String
  name : String
  deriving DecidableEq, Repr

def Accessor.text (a : Accessor) : String :=
  a.reg ++ "(\"" ++ a.name ++ "\", &" ++ a.cls ++ "::" ++ a.name ++ ")"

/-- The mutable locals of the `class_attrs` field loop (source lines 147-154,
159, 164). -/
structure LoopState where
  types : List String
  kwargs : List KwArg
  constructor_args : List CtorArg
  init_args : List InitArg
  default_init_args : List DefInitArg
  struct_members : List Member
  pydantic_attrs : List Accessor
  names : List String
  all_includes : List String
  all_usings : List String
  needs_default_constructor : Bool
  deriving DecidableEq, Repr

/-- The initial loop state: all lists empty except
`all_includes = {'"msgpack/msgpack.h"'}` (line 159). -/
def initLoopState : LoopState :=
  { types := [], kwargs := [], constructor_args := [], init_args := [],
    default_init_args := [], struct_members := [], pydantic_attrs := [],
    names := [], all_includes := ["\"msgpack/msgpack.h\""], all_usings := [],
    needs_default_constructor := false }

/-- One iteration of the `class_attrs` field loop (source lines 166-194).
`reg` is the accessor registration kind, `cls` the class name, `bfn` the base
field names.  `position` is `len(types)` when the default literal is truthy and
`0` otherwise (line 177); the four full lists are updated unconditionally, the
four member lists only when the name is not provided by a base (line 190);
`list.insert` clamps to an append for the shorter member lists. -/
def class_attrs_step (reg cls : String) (bfn : List String) (st : LoopState) (fld : PyField) :
    Except String LoopState :=
  match cpp_type fld.type with
  | .error e => .error e
  | .ok (typ, includes, usings) =>
      let all_includes := setUnionL st.all_includes includes
      let all_usings := setUnionL st.all_usings usings
      let move := field_move fld.type
      let default := cpp_default fld.default
      let truthy := pyTruthy default
      let position := if truthy then st.types.length else 0
      let names := listInsert st.names position fld.name
      let default_suffix := if truthy then "=" ++ (default.getD "") else ""
      let needs := if truthy then st.needs_default_constructor else true
      let constructor_args :=
        listInsert st.constructor_args position ⟨typ, fld.name, default_suffix⟩
      let kwargs := listInsert st.kwargs position ⟨fld.name, default_suffix⟩
      let types := listInsert st.types position typ
      if fld.name ∈ bfn then
        .ok { st with names, constructor_args, kwargs, types, all_includes, all_usings,
                      needs_default_constructor := needs }
      else
        .ok { st with names, constructor_args, kwargs, types, all_includes, all_usings,
                      needs_default_constructor := needs,
                      init_args := listInsert st.init_args position ⟨fld.name, move⟩,
                      default_init_args :=
                        listInsert st.default_init_args position ⟨fld.name, pyOrEmpty default⟩,
                      struct_members := listInsert st.struct_members position ⟨typ, fld.name⟩,
                      pydantic_attrs := listInsert st.pydantic_attrs position ⟨reg, cls, fld.name⟩ }

/-- The tuple returned by `class_attrs` (source lines 197-198), with
`base_init` as the insertion-ordered `dict` of base name to that base's
`names` list. -/
structure ClassAttrs where
  names : List String
  constructor_args : List CtorArg
  init_args : List InitArg
  default_init_args : List DefInitArg
  base_init : List (String × List String)
  types : List String
  kwargs : List KwArg
  struct_members : List Member
  pydantic_attrs : List Accessor
  all_includes : List String
  all_usings : List String
  deriving DecidableEq, Repr

mutual

/-- Source `class_attrs` (lines 146-198): run the field loop, then build
`base_init = {b: class_attrs(b)[0] for b in bases}` (line 196), and return the
tuple, replacing `default_init_args` with `[]` when no field lacked a default
(line 197). -/
def class_attrs : PyClass → Except String ClassAttrs
  | .mk cname cfields cbases cfrozen =>
      let reg := if cfrozen then ".def_readonly" else ".def_readwrite"
      match List.foldlM (class_attrs_step reg cname (base_field_names cbases))
              initLoopState cfields with
      | .error e => .error e
      | .ok st =>
          match base_inits cbases with
          | .error e => .error e
          | .ok bi =>
              .ok { names := st.names,
                    constructor_args := st.constructor_args,
                    init_args := st.init_args,
                    default_init_args :=
                      if st.needs_default_constructor then st.default_init_args else [],
                    base_init := bi,
                    types := st.types,
                    kwargs := st.kwargs,
                    struct_members := st.struct_members,
                    pydantic_attrs := st.pydantic_attrs,
                    all_includes := st.all_includes,
                    all_usings := st.all_usings }
termination_by structural c => c

def base_inits : List PyClass → Except String (List (String × List String))
  | [] => .ok []
  | b :: bs =>
      match class_attrs b with
      | .error e => .error e
      | .ok a =>
          match base_inits bs with
          | .error e => .error e
          | .ok rest => .ok ((b.name, a.names) :: rest)
termination_by structural l => l

end

/-! ## Record emission (`generate_class`, source lines 201-266)

`generate_class` consumes the `class_attrs` tuple and assembles the struct
text and the binding text.  The content decisions are:
* if `types` is empty the record is silently skipped, returning
  `None, None, None, None` (lines 207-208);
* the zero-argument default constructor and the `.def(py::init<>())` binding
  line are emitted exactly when `default_init_args` is non-empty
  (lines 223-238);
* the struct derives from the `base_init` bases, chains their constructors
  with their own `names` as arguments (lines 240-244), lists one member per
  own field, and lists all `names` in `MSGPACK_DEFINE` (line 255);
* the binding registers the full constructor with `types`/`kwargs`, the two
  msgpack methods, and one accessor per own field (lines 258-264).
The structured output below records those decisions; the textual interleaving
(`TextWrapper` re-wrapping, indentation) is presentation and not modelled. -/

/-- The struct definition content of `generate_class`. -/
structure StructDef where
  name : String
  baseNames : List String
  defaultCtor : Option (List String × List DefInitArg)
  ctorArgs : List CtorArg
  baseInitCalls : List (String × List String)
  initArgs : List InitArg
  members : List Member
  msgpackNames : List String
  deriving DecidableEq, Repr

/-- The binding registration content of `generate_class`. -/
structure BindingDef where
  name : String
  pydanticBases : List String
  hasDefaultInit : Bool
  initTypes : List String
  kwargs : List KwArg
  attrs : List Accessor
  deriving DecidableEq, Repr

def generate_class (c : PyClass) :
    Except String (Option (StructDef × BindingDef × List String × List String)) :=
  match class_attrs c with
  | .error e => .error e
  | .ok a =>
      if a.types = [] then .ok none
      else
        .ok (some
          ({ name := c.name,
             baseNames := a.base_init.map Prod.fst,
             defaultCtor :=
               if a.default_init_args = [] then none
               else some (a.base_init.map Prod.fst, a.default_init_args),
             ctorArgs := a.constructor_args,
             baseInitCalls := a.base_init,
             initArgs := a.init_args,
             members := a.struct_members,
             msgpackNames := a.names },
           { name := c.name,
             pydanticBases := a.base_init.map Prod.fst,
             hasDefaultInit := a.default_init_args ≠ [],
             initTypes := a.types,
             kwargs := a.kwargs,
             attrs := a.pydantic_attrs },
           a.all_includes, a.all_usings))

/-! ## Enum emission (`generate_enum`, source lines 269-283) -/

structure PyEnum where
  name : String
  members : List (String × Int)

/-- `enum class Name { A = 1, ... };` content. -/
structure EnumDef where
  name : String
  items : List (String × Int)
  deriving DecidableEq, Repr

/-- `py::enum_<Name>(m, "Name").value("A", Name::A)...;` content. -/
structure EnumBinding where
  name : String
  values : List String
  deriving DecidableEq, Repr

def generate_enum (e : PyEnum) : EnumDef × EnumBinding :=
  ({ name := e.name, items := e.members },
   { name := e.name, values := e.members.map Prod.fst })

/-! ## Module assembly (`generate_module`, source lines 286-380) -/

/-- One entry of `vars(module)` that survives the filter at source
lines 313-318: an `Enum` subclass or a `PybindDataclass`/`PybindBaseModel`
subclass declared in this module. -/
inductive ModuleEntry where
  | enumE (e : PyEnum)
  | classE (c : PyClass)

structure PyModule where
  module_name : String
  entries : List ModuleEntry

/-- One element of the module's `pydantic_defs` list (enum and class binding
registrations interleaved in declaration order). -/
inductive BindingItem where
  | enumB (b : EnumBinding)
  | classB (b : BindingDef)
  deriving DecidableEq, Repr

/-- The accumulating state of the module loop (source lines 307-325). -/
structure ModState where
  includes : List String
  usings : List String
  struct_defs : List StructDef
  pydantic_defs : List BindingItem
  enum_defs : List EnumDef
  deriving DecidableEq, Repr

def initModState : ModState :=
  { includes := [], usings := [], struct_defs := [], pydantic_defs := [], enum_defs := [] }

/-- One iteration of the module loop: an enum is always emitted
(lines 314-317); a record is emitted only when `generate_class` returned
a struct (lines 318-325). -/
def module_step (st : ModState) : ModuleEntry → Except String ModState
  | .enumE e =>
      let (ed, eb) := generate_enum e
      .ok { st with enum_defs := st.enum_defs ++ [ed],
                    pydantic_defs := st.pydantic_defs ++ [.enumB eb] }
  | .classE c =>
      match generate_class c with
      | .error e => .error e
      | .ok none => .ok st
      | .ok (some (sd, bd, inc, us)) =>
          .ok { st with struct_defs := st.struct_defs ++ [sd],
                        pydantic_defs := st.pydantic_defs ++ [.classB bd],
                        includes := setUnionL st.includes inc,
                        usings := setUnionL st.usings us }

def module_collect (entries : List ModuleEntry) : Except String ModState :=
  List.foldlM module_step initModState entries

/-- `module.__name__.split('.')[-0]` (source line 296): `[-0]` is `[0]`, the
root package name. -/
def module_root (module_name : String) : String :=
  ((pySplit module_name '.').headD "")

def module_base_name (module_name : String) : String :=
  ((pySplit module_name '.').getLastD "")

def self_include (module_name : String) : String :=
  "\"" ++ pyReplace module_name "." "/" ++ ".h\""

/-- `"/".join(module_name.split(".")[:-1])` (source line 299). -/
def include_root (module_name : String) : String :=
  pyJoin "/" (pySplit module_name '.').dropLast

def qualified_module_name (module_name : String) : String :=
  pyJoin "_" (pySplit module_name '.').dropLast ++ "_" ++ module_base_name module_name

def module_namespace (module_name : String) : String :=
  pyJoin "::" (pySplit module_name '.').dropLast

def module_guard (module_name : String) : String :=
  pyReplace (pyUpper (module_namespace module_name)) "::" "_" ++ "_"
    ++ pyUpper (module_base_name module_name) ++ "_H"

/-- The filter selecting which includes produce a runtime import (source
line 328): the include must start with `'"' + module_root` and must not
contain `include_root` as a substring. -/
def import_cond (module_name inc : String) : Bool :=
  pyStartsWith inc ("\"" ++ module_root module_name)
    && !(pyContains inc (include_root module_name))

/-- Source lines 329-334: turn a header include such as `"a/x/y.h"` into
the statement `py::module_::import("a.x.__pybind__.a_x_y");` (the quote
characters carried inside the include string become the C++ string literal
quotes). -/
def mk_import_stmt (indent inc : String) : String :=
  let import_parts := pySplit inc '/'
  let import_parts := listInsert import_parts (import_parts.length - 1) "__pybind__"
  let import_qualifier := pyStrip (pyJoin "_" import_parts.dropLast.dropLast) '"'
  let lastPart := import_qualifier ++ "_" ++ pyReplace (import_parts.getLastD "") ".h" ""
  let imprt := pyJoin "." (import_parts.dropLast ++ [lastPart])
  indent ++ "py::module_::import(" ++ imprt ++ ");"

/-- The assembled module output.  `include_directives` and `using_stmts` are
the fully rendered lines of the header; `runtime_imports` the rendered import
statements of the source file; the enum/struct/binding contents stay
structured.  `includes` retains the raw include set for the import filter. -/
structure ModuleOutput where
  guard : String
  nmspace : String
  qualified_name : String
  includes : List String
  include_directives : List String
  using_stmts : List String
  runtime_imports : List String
  enum_defs : List EnumDef
  struct_defs : List StructDef
  pydantic_defs : List BindingItem
  deriving DecidableEq, Repr

/-- The post-loop assembly of `generate_module` (source lines 327-374) as a
pure function of the collected state.  `indent` is `" " * indent_size` with
the default `indent_size = 4`. -/
def module_output_of (module_name : String) (st : ModState) : ModuleOutput :=
  let indent := "    "
  let imports := (st.includes.filter (import_cond module_name)).map (mk_import_stmt indent)
  let includesFmt :=
    pySorted (st.includes.filter (fun i => !(pyEndsWith i ".h\"")))
      ++ pySorted (st.includes.filter
            (fun i => pyEndsWith i ".h\"" && i ≠ self_include module_name))
  let usingsFmt :=
    (pySorted st.usings).filter
      (fun u => pyJoin "::" (pySplitStr u "::").dropLast ≠ module_namespace module_name)
  { guard := module_guard module_name,
    nmspace := module_namespace module_name,
    qualified_name := qualified_module_name module_name,
    includes := st.includes,
    include_directives := includesFmt.map (fun i => "#include " ++ i),
    using_stmts := usingsFmt.map (fun u => "using " ++ u ++ ";"),
    runtime_imports := imports,
    enum_defs := st.enum_defs,
    struct_defs := st.struct_defs,
    pydantic_defs := st.pydantic_defs }

/-- Source `generate_module` (lines 286-380) up to the two file writes:
collect the declared entities, then
* `imports`: one statement per include passing `import_cond`, iterating the
  include set (lines 327-334; Python iterates the set in unspecified order,
  modelled here as first-insertion order — no claim depends on the relative
  order of two import statements);
* `includes`: `#include` lines, non-`.h"` operands first then `.h"` operands
  other than the module's own header, each group sorted (lines 336-338);
* `usings`: `using ...;` for each sorted using whose namespace prefix differs
  from the module's namespace (line 340).
The header/source texts are these pieces spliced into fixed templates
(lines 348-374); the write calls (lines 376-380) happen only after the loop,
so an error anywhere above means neither file is written — modelled by
`Except`: output exists only in the `.ok` case. -/
def generate_module (m : PyModule) : Except String ModuleOutput :=
  match module_collect m.entries with
  | .error e => .error e
  | .ok st => .ok (module_output_of m.module_name st)

/-- The body of the `PYBIND11_MODULE` block in the source artifact: the
template at source lines 359-374 splices `import_contents` (the
runtime imports, in order) strictly before the joined `pydantic_defs`
(all binding registrations, in order). -/
inductive CppBodyItem where
  | importStmt (s : String)
  | bindingReg (b : BindingItem)
  deriving DecidableEq, Repr

def cpp_body (out : ModuleOutput) : List CppBodyItem :=
  out.runtime_imports.map .importStmt ++ out.pydantic_defs.map .bindingReg

/-! ## Per-field specification values

These are the values the `class_attrs` loop computes for a single field; they
exist so that the loop output can be characterized list-by-list. -/

/-- The field has a (truthy) default literal: Python `if default:` on the
result of `cpp_default`. -/
def field_truthy (f : PyField) : Bool := pyTruthy (cpp_default f.default)

/-- The resolved C++ type text of the field (meaningful when resolution
succeeds). -/
def field_typ (f : PyField) : String :=
  match cpp_type f.type with
  | .ok r => r.1
  | .error _ => ""

/-- The includes contributed by the field's type. -/
def field_includes (f : PyField) : List String :=
  match cpp_type f.type with
  | .ok r => r.2.1
  | .error _ => []

def suffix_of (f : PyField) : String :=
  if field_truthy f then "=" ++ (cpp_default f.default).getD "" else ""

def ctor_of (f : PyField) : CtorArg := ⟨field_typ f, f.name, suffix_of f⟩

def kw_of (f : PyField) : KwArg := ⟨f.name, suffix_of f⟩

def init_of (f : PyField) : InitArg := ⟨f.name, field_move f.type⟩

def dinit_of (f : PyField) : DefInitArg := ⟨f.name, pyOrEmpty (cpp_default f.default)⟩

def member_of (f : PyField) : Member := ⟨field_typ f, f.name⟩

def acc_of (reg cls : String) (f : PyField) : Accessor := ⟨reg, cls, f.name⟩

/-- The fields whose default literal is falsy (no declared default). -/
def noDefault (fs : List PyField) : List PyField := fs.filter (fun f => !(field_truthy f))

/-- The fields whose default literal is truthy. -/
def withDefault (fs : List PyField) : List PyField := fs.filter (fun f => field_truthy f)

/-- The fields stored by the record itself (name not provided by a base). -/
def ownFields (bfn : List String) (fs : List PyField) : List PyField :=
  fs.filter (fun f => decide (f.name ∉ bfn))

/-! ## Characterization of the `class_attrs` field loop -/

/-- Invariants of the loop state needed to locate the insertion position:
the four full lists grow in lockstep with `types`, the four member-only lists
never outgrow `types`. -/
def LoopInv (st : LoopState) : Prop :=
  st.names.length = st.types.length ∧
  st.constructor_args.length = st.types.length ∧
  st.kwargs.length = st.types.length ∧
  st.init_args.length ≤ st.types.length ∧
  st.default_init_args.length ≤ st.types.length ∧
  st.struct_members.length ≤ st.types.length ∧
  st.pydantic_attrs.length ≤ st.types.length


/-- The absence sentinel, as a Boolean discriminator (`PyDefault` is a nested
inductive, so no derived decidable equality). -/
def is_missing : PyDefault → Bool
  | .missing => true
  | _ => false

/-- Claim-side: the small scalar/temporal kinds listed by the spec
(bool, int, float, date, datetime, time, timedelta). -/
def smallScalarTemporal : PyType → Bool
  | .boolT | .intT | .floatT | .dateT | .datetimeT | .timeT | .timedeltaT => true
  | _ => false

def isEnumType : PyType → Bool
  | .enumRef _ _ => true
  | _ => false

/-- Claim-side: annotations that are plain classes, on which `issubclass`
does not raise `TypeError` (parameterized generics and `...` are not). -/
def isPlainClassType : PyType → Bool
  | .union _ | .pyList _ | .pySet _ | .pyTuple _ | .pyDict _ | .ellipsis => false
  | _ => true

/-- Claim-side well-formedness of an emitted `#include` line: the operand is
angle-bracketed or double-quoted. -/
def wellFormedIncludeDirective (s : String) : Bool :=
  (pyStartsWith s "#include <" && pyEndsWith s ">")
    || (pyStartsWith s "#include \"" && pyEndsWith s "\"")

/-! ## Concrete schema declarations used to instantiate the claims -/

/-- Fields `a: int` (no default), `b: str = "x"`, `c: bool` (no default). -/
def abcRec : PyClass :=
  .mk "Rec" [⟨"a", .intT, .missing⟩, ⟨"b", .strT, .strV "x"⟩, ⟨"c", .boolT, .missing⟩] [] false

def baseId : PyClass := .mk "Base" [⟨"id", .intT, .missing⟩] [] false

/-- Derived record sharing field `id` with its base (the reflected field list
contains the inherited `id` followed by the own field `tag`). -/
def derId : PyClass :=
  .mk "Der" [⟨"id", .intT, .missing⟩, ⟨"tag", .strT, .missing⟩] [baseId] false

def emptyRec : PyClass := .mk "Empty" [] [] false

def intRec : PyClass := .mk "P" [⟨"i", .intT, .missing⟩] [] false

def mod5a : PyModule := ⟨"a.b.m1", [.classE emptyRec, .classE intRec]⟩

def mod5b : PyModule := ⟨"a.b.m1", [.classE intRec]⟩

/-- A record with a bare (unparameterized) `list` field. -/
def bareListRec : PyClass := .mk "P" [⟨"xs", .pyList [], .missing⟩] [] false

def mod6 : PyModule := ⟨"a.b.m1", [.classE bareListRec]⟩

/-- A record in module `a.b.m1` referencing a record declared in the sibling
module `a.b.m2` of the same package. -/
def siblingRefRec : PyClass := .mk "P" [⟨"o", .modelRef "a.b.m2" "Other", .missing⟩] [] false

def mod71 : PyModule := ⟨"a.b.m1", [.classE siblingRefRec]⟩

/-- A record in module `a.b.m1` referencing a record declared in module
`a.c.m3` of a different package under the same root. -/
def crossPkgRec : PyClass := .mk "P" [⟨"o", .modelRef "a.c.m3" "Other", .missing⟩] [] false

def mod72 : PyModule := ⟨"a.b.m1", [.classE crossPkgRec]⟩

/-- A record with one enum-typed field. -/
def enumFieldRec : PyClass := .mk "E" [⟨"e", .enumRef "a.b.m1" "Color", .missing⟩] [] false

/-- A record with one `str` field. -/
def strFieldRec : PyClass := .mk "S" [⟨"s", .strT, .missing⟩] [] false

def baseA : PyClass := .mk "A" [⟨"x", .intT, .missing⟩] [] false

/-- A record whose only reflected field is inherited from its base. -/
def derivedB : PyClass := .mk "B" [⟨"x", .intT, .missing⟩] [baseA] false

/-- A record with a `list[int]` field. -/
def vecFieldRec : PyClass := .mk "P" [⟨"xs", .pyList [.intT], .missing⟩] [] false

def mod10 : PyModule := ⟨"a.b.m1", [.classE vecFieldRec]⟩

/-! ## Basic lemmas about the Python-semantics helpers -/

theorem listInsert_zero {α : Type} (l : List α) (a : α) : listInsert l 0 a = a :: l := by
  simp [listInsert]

theorem listInsert_of_length_le {α : Type} {l : List α} {i : Nat} (h : l.length ≤ i) (a : α) :
    listInsert l i a = l ++ [a] := by
  simp [listInsert, List.take_of_length_le h, List.drop_eq_nil_of_le h]

theorem listInsert_length {α : Type} (l : List α) (i : Nat) (a : α) :
    (listInsert l i a).length = l.length + 1 := by
  simp [listInsert]
  omega

theorem mem_setIns_self (s : List String) (x : String) : x ∈ setIns s x := by
  by_cases h : x ∈ s <;> simp [setIns, h]

theorem mem_setIns_of_mem {s : List String} {y : String} (h : y ∈ s) (x : String) :
    y ∈ setIns s x := by
  by_cases hx : x ∈ s <;> simp [setIns, hx, h]

theorem mem_setUnionL_left {s : List String} {y : String} (h : y ∈ s) (t : List String) :
    y ∈ setUnionL s t := by
  induction t generalizing s with
  | nil => exact h
  | cons x xs ih => exact ih (mem_setIns_of_mem h x)

theorem mem_setUnionL_right {t : List String} {y : String} (h : y ∈ t) (s : List String) :
    y ∈ setUnionL s t := by
  induction t generalizing s with
  | nil => cases h
  | cons x xs ih =>
      rcases List.mem_cons.mp h with rfl | h2
      · exact mem_setUnionL_left (mem_setIns_self s y) xs
      · exact ih h2 (setIns s x)


theorem initLoopState_inv : LoopInv initLoopState := by
  simp [LoopInv, initLoopState]

theorem except_bind_ok {ε α β : Type} (a : α) (k : α → Except ε β) :
    (Except.ok a >>= k) = k a := rfl

theorem except_bind_error {ε α β : Type} (e : ε) (k : α → Except ε β) :
    ((Except.error e : Except ε α) >>= k) = .error e := rfl

/-- The full characterization of the `class_attrs` field loop: fields without
a default are prepended (ending up reversed), fields with a default are
appended (keeping declaration order), and the four member-only lists receive
the same treatment restricted to fields not provided by a base. -/
theorem loop_char (reg cls : String) (bfn : List String) :
    ∀ (fs : List PyField) (st st' : LoopState),
      List.foldlM (class_attrs_step reg cls bfn) st fs = .ok st' →
      LoopInv st →
      st'.names
          = (noDefault fs).reverse.map PyField.name ++ st.names
            ++ (withDefault fs).map PyField.name ∧
      st'.types
          = (noDefault fs).reverse.map field_typ ++ st.types
            ++ (withDefault fs).map field_typ ∧
      st'.constructor_args
          = (noDefault fs).reverse.map ctor_of ++ st.constructor_args
            ++ (withDefault fs).map ctor_of ∧
      st'.kwargs
          = (noDefault fs).reverse.map kw_of ++ st.kwargs ++ (withDefault fs).map kw_of ∧
      st'.init_args
          = (noDefault (ownFields bfn fs)).reverse.map init_of ++ st.init_args
            ++ (withDefault (ownFields bfn fs)).map init_of ∧
      st'.default_init_args
          = (noDefault (ownFields bfn fs)).reverse.map dinit_of ++ st.default_init_args
            ++ (withDefault (ownFields bfn fs)).map dinit_of ∧
      st'.struct_members
          = (noDefault (ownFields bfn fs)).reverse.map member_of ++ st.struct_members
            ++ (withDefault (ownFields bfn fs)).map member_of ∧
      st'.pydantic_attrs
          = (noDefault (ownFields bfn fs)).reverse.map (acc_of reg cls) ++ st.pydantic_attrs
            ++ (withDefault (ownFields bfn fs)).map (acc_of reg cls) ∧
      st'.needs_default_constructor
          = (st.needs_default_constructor || fs.any (fun f => !(field_truthy f))) := by
  intro fs
  induction fs with
  | nil =>
      intro st st' hfold _
      simp only [List.foldlM_nil] at hfold
      cases hfold
      simp [noDefault, withDefault, ownFields]
  | cons f rest ih =>
      intro st st' hfold hinv
      rw [List.foldlM_cons] at hfold
      obtain ⟨hn, hc, hk, hi, hd, hm, hp⟩ := hinv
      cases hty : cpp_type f.type with
      | error e =>
          simp only [class_attrs_step, hty, except_bind_error] at hfold
          cases hfold
      | ok r =>
          obtain ⟨typ, includes, usings⟩ := r
          simp only [class_attrs_step, hty] at hfold
          have htyp : field_typ f = typ := by simp [field_typ, hty]
          by_cases hmem : f.name ∈ bfn <;>
            [(simp only [if_pos hmem, except_bind_ok] at hfold);
             (simp only [if_neg hmem, except_bind_ok] at hfold)] <;>
          cases htr : pyTruthy (cpp_default f.default) <;>
            simp only [htr, Bool.false_eq_true, if_false, if_true, listInsert_zero] at hfold <;>
          [skip; skip; skip; skip] <;>
          · first
            | (
               -- truthy = false branches: prepend at position 0
               obtain ⟨e1, e2, e3, e4, e5, e6, e7, e8, e9⟩ := ih _ _ hfold (by
                 refine ⟨?_, ?_, ?_, ?_, ?_, ?_, ?_⟩ <;>
                   simp only [listInsert_length, List.length_cons] <;> omega)
               have hft : field_truthy f = false := by simp [field_truthy, htr]
               refine ⟨?_, ?_, ?_, ?_, ?_, ?_, ?_, ?_, ?_⟩ <;>
                 simp [e1, e2, e3, e4, e5, e6, e7, e8, e9, noDefault, withDefault,
                   ownFields, List.filter_cons, hft, hmem, htyp, suffix_of, ctor_of,
                   kw_of, init_of, dinit_of, member_of, acc_of, field_truthy, htr])
            | (
               -- truthy = true branches: append at position len(types)
               have hinsN : listInsert st.names st.types.length f.name = st.names ++ [f.name] :=
                 listInsert_of_length_le (le_of_eq hn) _
               have hinsC : listInsert st.constructor_args st.types.length
                   (⟨typ, f.name, "=" ++ ((cpp_default f.default).getD "")⟩ : CtorArg)
                   = st.constructor_args ++ [⟨typ, f.name, "=" ++ ((cpp_default f.default).getD "")⟩] :=
                 listInsert_of_length_le (le_of_eq hc) _
               have hinsK : listInsert st.kwargs st.types.length
                   (⟨f.name, "=" ++ ((cpp_default f.default).getD "")⟩ : KwArg)
                   = st.kwargs ++ [⟨f.name, "=" ++ ((cpp_default f.default).getD "")⟩] :=
                 listInsert_of_length_le (le_of_eq hk) _
               have hinsT : listInsert st.types st.types.length typ = st.types ++ [typ] :=
                 listInsert_of_length_le le_rfl _
               have hinsI : listInsert st.init_args st.types.length
                   (⟨f.name, field_move f.type⟩ : InitArg)
                   = st.init_args ++ [⟨f.name, field_move f.type⟩] :=
                 listInsert_of_length_le hi _
               have hinsD : listInsert st.default_init_args st.types.length
                   (⟨f.name, pyOrEmpty (cpp_default f.default)⟩ : DefInitArg)
                   = st.default_init_args ++ [⟨f.name, pyOrEmpty (cpp_default f.default)⟩] :=
                 listInsert_of_length_le hd _
               have hinsM : listInsert st.struct_members st.types.length
                   (⟨typ, f.name⟩ : Member)
                   = st.struct_members ++ [⟨typ, f.name⟩] :=
                 listInsert_of_length_le hm _
               have hinsP : listInsert st.pydantic_attrs st.types.length
                   (⟨reg, cls, f.name⟩ : Accessor)
                   = st.pydantic_attrs ++ [⟨reg, cls, f.name⟩] :=
                 listInsert_of_length_le hp _
               simp only [hinsN, hinsC, hinsK, hinsT, hinsI, hinsD, hinsM, hinsP] at hfold
               obtain ⟨e1, e2, e3, e4, e5, e6, e7, e8, e9⟩ := ih _ _ hfold (by
                 refine ⟨?_, ?_, ?_, ?_, ?_, ?_, ?_⟩ <;>
                   simp only [List.length_append, List.length_cons, List.length_nil] <;> omega)
               have hft : field_truthy f = true := by simp [field_truthy, htr]
               refine ⟨?_, ?_, ?_, ?_, ?_, ?_, ?_, ?_, ?_⟩ <;>
                 simp [e1, e2, e3, e4, e5, e6, e7, e8, e9, noDefault, withDefault,
                   ownFields, List.filter_cons, hft, hmem, htyp, suffix_of, ctor_of,
                   kw_of, init_of, dinit_of, member_of, acc_of, field_truthy, htr])

theorem length_filter_add_length_filter_not {α : Type} (p : α → Bool) (l : List α) :
    (l.filter p).length + (l.filter (fun a => !(p a))).length = l.length := by
  induction l with
  | nil => simp
  | cons x xs ih =>
      cases hx : p x <;> simp [List.filter_cons, hx, ← ih] <;> omega

/-- Characterization of `base_inits`: one entry per base, in order, carrying
the base's own `names` list. -/
theorem base_inits_char :
    ∀ (bs : List PyClass) (bi : List (String × List String)),
      base_inits bs = .ok bi →
      bi.map Prod.fst = bs.map PyClass.name ∧
      ∀ b ∈ bs, ∃ ab, class_attrs b = .ok ab ∧ (b.name, ab.names) ∈ bi := by
  intro bs
  induction bs with
  | nil =>
      intro bi h
      simp only [base_inits] at h
      cases h
      simp
  | cons b rest ih =>
      intro bi h
      simp only [base_inits] at h
      cases hb : class_attrs b with
      | error e => rw [hb] at h; cases h
      | ok ab =>
          rw [hb] at h
          cases hrest : base_inits rest with
          | error e => rw [hrest] at h; cases h
          | ok birest =>
              rw [hrest] at h
              cases h
              obtain ⟨ih1, ih2⟩ := ih birest hrest
              refine ⟨by simp [ih1], ?_⟩
              intro b2 hb2
              rcases List.mem_cons.mp hb2 with rfl | hb2
              · exact ⟨ab, hb, List.mem_cons_self _ _⟩
              · obtain ⟨ab2, h1, h2⟩ := ih2 b2 hb2
                exact ⟨ab2, h1, List.mem_cons_of_mem _ h2⟩

/-- The `class_attrs` output in terms of the record's reflected fields:
the field loop starts from `initLoopState`, so every list of the result is
the loop characterization with empty initial segments. -/
theorem class_attrs_char (c : PyClass) (a : ClassAttrs) (h : class_attrs c = .ok a) :
    a.names = ((noDefault c.fields).reverse ++ withDefault c.fields).map PyField.name ∧
    a.types = ((noDefault c.fields).reverse ++ withDefault c.fields).map field_typ ∧
    a.constructor_args = ((noDefault c.fields).reverse ++ withDefault c.fields).map ctor_of ∧
    a.init_args
        = ((noDefault (ownFields (base_field_names c.bases) c.fields)).reverse
            ++ withDefault (ownFields (base_field_names c.bases) c.fields)).map init_of ∧
    a.struct_members
        = ((noDefault (ownFields (base_field_names c.bases) c.fields)).reverse
            ++ withDefault (ownFields (base_field_names c.bases) c.fields)).map member_of ∧
    a.pydantic_attrs
        = ((noDefault (ownFields (base_field_names c.bases) c.fields)).reverse
            ++ withDefault (ownFields (base_field_names c.bases) c.fields)).map
              (acc_of (if c.frozen then ".def_readonly" else ".def_readwrite") c.name) ∧
    a.default_init_args
        = (if c.fields.any (fun f => !(field_truthy f)) then
            ((noDefault (ownFields (base_field_names c.bases) c.fields)).reverse
              ++ withDefault (ownFields (base_field_names c.bases) c.fields)).map dinit_of
           else []) ∧
    a.base_init.map Prod.fst = c.bases.map PyClass.name ∧
    (∀ b ∈ c.bases, ∃ ab, class_attrs b = .ok ab ∧ (b.name, ab.names) ∈ a.base_init) := by
  obtain ⟨cn, cf, cb, cfz⟩ := c
  simp only [class_attrs] at h
  cases hfold : List.foldlM
      (class_attrs_step (if cfz then ".def_readonly" else ".def_readwrite") cn
        (base_field_names cb)) initLoopState cf with
  | error e => rw [hfold] at h; cases h
  | ok st =>
      rw [hfold] at h
      cases hbi : base_inits cb with
      | error e => rw [hbi] at h; cases h
      | ok bi =>
          rw [hbi] at h
          cases h
          obtain ⟨e1, e2, e3, e4, e5, e6, e7, e8, e9⟩ :=
            loop_char (if cfz then ".def_readonly" else ".def_readwrite") cn
              (base_field_names cb) cf initLoopState st hfold initLoopState_inv
          obtain ⟨bi1, bi2⟩ := base_inits_char cb bi hbi
          refine ⟨?_, ?_, ?_, ?_, ?_, ?_, ?_, ?_, fun b hb => ?_⟩
          · simp [PyClass.fields, e1, initLoopState]
          · simp [PyClass.fields, e2, initLoopState]
          · simp [PyClass.fields, e3, initLoopState]
          · simp [PyClass.fields, PyClass.bases, e5, initLoopState]
          · simp [PyClass.fields, PyClass.bases, e7, initLoopState]
          · simp [PyClass.fields, PyClass.bases, PyClass.name, PyClass.frozen, e8, initLoopState]
          · simp [PyClass.fields, PyClass.bases, e6, e9, initLoopState]
          · simpa [PyClass.bases] using bi1
          · simpa [PyClass.bases] using bi2 b (by simpa [PyClass.bases] using hb)

/-- If one step of the field loop succeeds, the field's type resolved. -/
theorem step_ok_cpp {reg cls : String} {bfn : List String} {st st1 : LoopState} {f : PyField}
    (h : class_attrs_step reg cls bfn st f = .ok st1) :
    ∃ r, cpp_type f.type = .ok r := by
  cases hty : cpp_type f.type with
  | error e =>
      simp only [class_attrs_step, hty] at h
      exact Except.noConfusion h
  | ok r => exact ⟨r, rfl⟩

/-- One step of the field loop unions exactly the field's includes into the
state, whatever the branch taken. -/
theorem step_includes {reg cls : String} {bfn : List String} {st st1 : LoopState} {f : PyField}
    (h : class_attrs_step reg cls bfn st f = .ok st1) :
    st1.all_includes = setUnionL st.all_includes (field_includes f) := by
  cases hty : cpp_type f.type with
  | error e =>
      simp only [class_attrs_step, hty] at h
      exact Except.noConfusion h
  | ok r =>
      obtain ⟨typ, includes, usings⟩ := r
      simp only [class_attrs_step, hty] at h
      have hfi : field_includes f = includes := by simp [field_includes, hty]
      by_cases hmem : f.name ∈ bfn <;>
        simp only [if_pos, if_neg, hmem, ite_true, ite_false] at h <;>
        cases h <;> simp [hfi]

theorem fold_ok_cpp {reg cls : String} {bfn : List String} :
    ∀ {fs : List PyField} {st st' : LoopState},
      List.foldlM (class_attrs_step reg cls bfn) st fs = .ok st' →
      ∀ f ∈ fs, ∃ r, cpp_type f.type = .ok r := by
  intro fs
  induction fs with
  | nil => intro st st' _ f hf; cases hf
  | cons g rest ih =>
      intro st st' hfold f hf
      rw [List.foldlM_cons] at hfold
      cases hstep : class_attrs_step reg cls bfn st g with
      | error e => rw [hstep] at hfold; cases hfold
      | ok st1 =>
          rw [hstep, except_bind_ok] at hfold
          rcases List.mem_cons.mp hf with rfl | hf2
          · exact step_ok_cpp hstep
          · exact ih hfold f hf2

theorem fold_includes_mono {reg cls : String} {bfn : List String} :
    ∀ {fs : List PyField} {st st' : LoopState},
      List.foldlM (class_attrs_step reg cls bfn) st fs = .ok st' →
      ∀ {x}, x ∈ st.all_includes → x ∈ st'.all_includes := by
  intro fs
  induction fs with
  | nil =>
      intro st st' hfold x hx
      simp only [List.foldlM_nil] at hfold
      cases hfold
      exact hx
  | cons g rest ih =>
      intro st st' hfold x hx
      rw [List.foldlM_cons] at hfold
      cases hstep : class_attrs_step reg cls bfn st g with
      | error e => rw [hstep] at hfold; cases hfold
      | ok st1 =>
          rw [hstep, except_bind_ok] at hfold
          refine ih hfold ?_
          rw [step_includes hstep]
          exact mem_setUnionL_left hx _

theorem fold_includes_field {reg cls : String} {bfn : List String} :
    ∀ {fs : List PyField} {st st' : LoopState},
      List.foldlM (class_attrs_step reg cls bfn) st fs = .ok st' →
      ∀ {f}, f ∈ fs → ∀ {x}, x ∈ field_includes f → x ∈ st'.all_includes := by
  intro fs
  induction fs with
  | nil => intro st st' _ f hf; cases hf
  | cons g rest ih =>
      intro st st' hfold f hf x hx
      rw [List.foldlM_cons] at hfold
      cases hstep : class_attrs_step reg cls bfn st g with
      | error e => rw [hstep] at hfold; cases hfold
      | ok st1 =>
          rw [hstep, except_bind_ok] at hfold
          rcases List.mem_cons.mp hf with rfl | hf2
          · refine fold_includes_mono hfold ?_
            rw [step_includes hstep]
            exact mem_setUnionL_right hx _
          · exact ih hfold hf2 hx

/-- `class_attrs` propagates every field's includes into `all_includes`, and
its success implies every field's type resolved. -/
theorem class_attrs_includes (c : PyClass) (a : ClassAttrs) (h : class_attrs c = .ok a) :
    (∀ f ∈ c.fields, ∃ r, cpp_type f.type = .ok r) ∧
    (∀ f ∈ c.fields, ∀ {x}, x ∈ field_includes f → x ∈ a.all_includes) := by
  obtain ⟨cn, cf, cb, cfz⟩ := c
  simp only [class_attrs] at h
  cases hfold : List.foldlM
      (class_attrs_step (if cfz then ".def_readonly" else ".def_readwrite") cn
        (base_field_names cb)) initLoopState cf with
  | error e => rw [hfold] at h; cases h
  | ok st =>
      rw [hfold] at h
      cases hbi : base_inits cb with
      | error e => rw [hbi] at h; cases h
      | ok bi =>
          rw [hbi] at h
          cases h
          exact ⟨fun f hf => fold_ok_cpp hfold f hf,
                 fun f hf x hx => fold_includes_field hfold hf hx⟩

/-! ## Module-level lemmas -/

/-- `generate_class` on a record with at least one reflected field: success
means a struct was emitted, whose includes are the `class_attrs` includes. -/
theorem generate_class_ok_some {c : PyClass} {a : ClassAttrs} (h : class_attrs c = .ok a)
    (hne : a.types ≠ []) :
    ∃ sd bd, generate_class c = .ok (some (sd, bd, a.all_includes, a.all_usings)) := by
  simp only [generate_class, h, if_neg hne]
  exact ⟨_, _, rfl⟩

/-- A record whose `class_attrs` types list is empty is silently skipped. -/
theorem generate_class_ok_none {c : PyClass} {a : ClassAttrs} (h : class_attrs c = .ok a)
    (hemp : a.types = []) : generate_class c = .ok none := by
  simp only [generate_class, h, if_pos hemp]

theorem generate_class_inv {c : PyClass} {sd : StructDef} {bd : BindingDef}
    {inc us : List String}
    (h : generate_class c = .ok (some (sd, bd, inc, us))) :
    ∃ a, class_attrs c = .ok a ∧ a.types ≠ [] ∧ inc = a.all_includes ∧ us = a.all_usings ∧
      sd.members = a.struct_members ∧ bd.attrs = a.pydantic_attrs ∧
      sd.ctorArgs = a.constructor_args ∧ sd.msgpackNames = a.names ∧
      sd.baseInitCalls = a.base_init ∧ sd.initArgs = a.init_args ∧
      (sd.defaultCtor = if a.default_init_args = [] then none
        else some (a.base_init.map Prod.fst, a.default_init_args)) ∧
      (bd.hasDefaultInit = (a.default_init_args ≠ [] : Bool)) := by
  cases ha : class_attrs c with
  | error e => simp only [generate_class, ha] at h; exact Except.noConfusion h
  | ok a =>
      simp only [generate_class, ha] at h
      by_cases hemp : a.types = []
      · rw [if_pos hemp] at h
        simp at h
      · rw [if_neg hemp] at h
        refine ⟨a, rfl, hemp, ?_⟩
        cases h
        simp

/-- A skipped record leaves the module loop state unchanged. -/
theorem module_step_skip {st : ModState} {c : PyClass} (h : generate_class c = .ok none) :
    module_step st (.classE c) = .ok st := by
  simp [module_step, h]

theorem module_fold_ok_class :
    ∀ {entries : List ModuleEntry} {st st' : ModState},
      List.foldlM module_step st entries = .ok st' →
      ∀ {c}, .classE c ∈ entries → ∃ r, generate_class c = .ok r := by
  intro entries
  induction entries with
  | nil => intro st st' _ c hc; cases hc
  | cons x rest ih =>
      intro st st' hfold c hc
      rw [List.foldlM_cons] at hfold
      cases hstep : module_step st x with
      | error e => rw [hstep] at hfold; cases hfold
      | ok st1 =>
          rw [hstep, except_bind_ok] at hfold
          rcases List.mem_cons.mp hc with rfl | hc2
          · cases hg : generate_class c with
            | error e => simp only [module_step, hg] at hstep; exact Except.noConfusion hstep
            | ok r => exact ⟨r, rfl⟩
          · exact ih hfold hc2

theorem module_step_includes_mono {st st1 : ModState} {x : ModuleEntry}
    (h : module_step st x = .ok st1) {i : String} (hi : i ∈ st.includes) :
    i ∈ st1.includes := by
  cases x with
  | enumE e =>
      simp only [module_step] at h
      cases h
      exact hi
  | classE c =>
      cases hg : generate_class c with
      | error e => simp only [module_step, hg] at h; exact Except.noConfusion h
      | ok r =>
          cases r with
          | none =>
              simp only [module_step, hg] at h
              cases h
              exact hi
          | some v =>
              obtain ⟨sd, bd, inc, us⟩ := v
              simp only [module_step, hg] at h
              cases h
              exact mem_setUnionL_left hi _

theorem module_fold_includes_mono :
    ∀ {entries : List ModuleEntry} {st st' : ModState},
      List.foldlM module_step st entries = .ok st' →
      ∀ {i}, i ∈ st.includes → i ∈ st'.includes := by
  intro entries
  induction entries with
  | nil =>
      intro st st' hfold i hi
      simp only [List.foldlM_nil] at hfold
      cases hfold
      exact hi
  | cons x rest ih =>
      intro st st' hfold i hi
      rw [List.foldlM_cons] at hfold
      cases hstep : module_step st x with
      | error e => rw [hstep] at hfold; cases hfold
      | ok st1 =>
          rw [hstep, except_bind_ok] at hfold
          exact ih hfold (module_step_includes_mono hstep hi)

/-- The includes of every emitted record reach the collected module state. -/
theorem module_fold_includes_class :
    ∀ {entries : List ModuleEntry} {st st' : ModState},
      List.foldlM module_step st entries = .ok st' →
      ∀ {c sd bd inc us}, .classE c ∈ entries →
        generate_class c = .ok (some (sd, bd, inc, us)) →
        ∀ {i}, i ∈ inc → i ∈ st'.includes := by
  intro entries
  induction entries with
  | nil => intro st st' _ c sd bd inc us hc; cases hc
  | cons x rest ih =>
      intro st st' hfold c sd bd inc us hc hg i hi
      rw [List.foldlM_cons] at hfold
      cases hstep : module_step st x with
      | error e => rw [hstep] at hfold; cases hfold
      | ok st1 =>
          rw [hstep, except_bind_ok] at hfold
          rcases List.mem_cons.mp hc with rfl | hc2
          · refine module_fold_includes_mono hfold ?_
            simp only [module_step, hg] at hstep
            cases hstep
            exact mem_setUnionL_right hi _
          · exact ih hfold hc2 hg hi

theorem intLit_data_ne_nil (n : Int) : (intLit n).data ≠ [] := by
  cases n with
  | ofNat m =>
      cases m with
      | zero => simp [intLit]
      | succ k => simp [intLit, natDigits]
  | negSucc m => simp [intLit, String.append]

/-- Every `cpp_default` literal is a non-empty string, so the Python `if
default:` truthiness test agrees exactly with "the default is not the absence
sentinel". -/
theorem field_truthy_eq (f : PyField) : field_truthy f = !(is_missing f.default) := by
  obtain ⟨nm, ty, df⟩ := f
  show pyTruthy (cpp_default df) = !(is_missing df)
  cases df with
  | missing => simp [field_truthy, cpp_default, pyTruthy, is_missing]
  | noneV => simp [field_truthy, cpp_default, pyTruthy, is_missing]
  | boolV b => cases b <;> simp [field_truthy, cpp_default, pyTruthy, is_missing]
  | strV s => simp [field_truthy, cpp_default, pyTruthy, is_missing, String.append]
  | enumV en m =>
      simp [field_truthy, cpp_default, pyTruthy, is_missing, String.append]
  | intV n =>
      simp [field_truthy, cpp_default, pyTruthy, is_missing, intLit_data_ne_nil n]
  | listV xs => simp [field_truthy, cpp_default, pyTruthy, is_missing, String.append]
  | setV xs => simp [field_truthy, cpp_default, pyTruthy, is_missing, String.append]
  | tupleV xs => simp [field_truthy, cpp_default, pyTruthy, is_missing, String.append]
  | dictV xs => simp [field_truthy, cpp_default, pyTruthy, is_missing, String.append]

/-- An entry whose step fails in every state makes the whole fold fail. -/
theorem module_fold_error :
    ∀ {entries : List ModuleEntry} {x : ModuleEntry}, x ∈ entries →
      (∀ st, ∃ e, module_step st x = .error e) →
      ∀ st, ∃ e, List.foldlM module_step st entries = .error e := by
  intro entries
  induction entries with
  | nil => intro x hx; cases hx
  | cons y rest ih =>
      intro x hx herr st
      rw [List.foldlM_cons]
      cases hstep : module_step st y with
      | error e => exact ⟨e, by rw [except_bind_error]⟩
      | ok st1 =>
          rcases List.mem_cons.mp hx with rfl | hx2
          · obtain ⟨e, he⟩ := herr st
            rw [hstep] at he
            exact Except.noConfusion he
          · obtain ⟨e, he⟩ := ih hx2 herr st1
            exact ⟨e, by rw [except_bind_ok, he]⟩

theorem noDefault_eq (fs : List PyField) :
    noDefault fs = fs.filter (fun f => is_missing f.default) := by
  unfold noDefault
  congr 1
  funext f
  rw [field_truthy_eq]
  simp

theorem withDefault_eq (fs : List PyField) :
    withDefault fs = fs.filter (fun f => !(is_missing f.default)) := by
  unfold withDefault
  congr 1
  funext f
  rw [field_truthy_eq]

/-! ## The claims -/

/-- C1: the claim states that `cpp_type` on a `Mapping(key, value)` descriptor
resolves key and value independently, emitting `std::unordered_map<K', V'>`
with `V'` the resolution of the value descriptor and the include/using sets
the unions of the key's and the value's.  The code (source line 139) resolves
`args[0]` — the key — a second time instead of `args[1]`, so on `dict[int,
str]` it emits `std::unordered_map<int, int>` instead of
`std::unordered_map<int, std::string>`, and its include set is the key's
includes twice united with the characters of `"unordered_map"` (a one-argument
`set.union` over a string), not the key∪value includes.  This theorem
evaluates the embedding at that failing input. -/
theorem c1_mapping_value_resolved_from_key :
    cpp_type (.pyDict [.intT, .strT])
        = .ok ("std::unordered_map<int, int>",
               ["u", "n", "o", "r", "d", "e", "_", "m", "a", "p"], [])
      ∧ cpp_type (.strT) = .ok ("std::string", ["<string>"], [])
      ∧ "std::unordered_map<int, int>" ≠ "std::unordered_map<int, std::string>" := by
  decide

/-- C2: for every record, the constructor-parameter order produced by the
field collector places the fields without a default first, in the reverse of
their declaration order, followed by the fields with a default in declaration
order — for both the `names` list and the constructor-argument list. -/
theorem c2_constructor_param_order (c : PyClass) (a : ClassAttrs)
    (h : class_attrs c = .ok a) :
    a.names
        = ((c.fields.filter (fun f => is_missing f.default)).reverse
            ++ c.fields.filter (fun f => !(is_missing f.default))).map PyField.name ∧
    a.constructor_args.map CtorArg.name
        = ((c.fields.filter (fun f => is_missing f.default)).reverse
            ++ c.fields.filter (fun f => !(is_missing f.default))).map PyField.name := by
  obtain ⟨e1, _, e3, _⟩ := class_attrs_char c a h
  constructor
  · rw [e1, noDefault_eq, withDefault_eq]
  · rw [e3, noDefault_eq, withDefault_eq]
    simp only [List.map_map]
    rw [show CtorArg.name ∘ ctor_of = PyField.name from rfl]

/-- C2 witness: for the record `a: int` (no default), `b: str = "x"`,
`c: bool` (no default), the generated constructor parameter order is
`c, a, b`. -/
theorem c2_constructor_param_order_witness :
    ∃ a, class_attrs abcRec = Except.ok a ∧ a.names = ["c", "a", "b"] := by
  cases h : class_attrs abcRec with
  | error e =>
      have hok : (class_attrs abcRec).toOption.isSome = true := by decide
      rw [h] at hok
      simp [Except.toOption] at hok
  | ok a =>
      refine ⟨a, rfl, ?_⟩
      rw [(c2_constructor_param_order abcRec a h).1]
      decide

/-- C3: resolving `Optional[X]` and resolving `Union[X, None]` yield the same
type text — the two descriptor shapes are one and the same descriptor after
Python's `typing` normalization — namely `std::optional` applied to `X`'s
resolved text, with the `None` variant stripped before wrapping. -/
theorem c3_optional_union_collapse (x : PyType) (t : String) (incs us : List String)
    (h : cpp_type x = .ok (t, incs, us)) :
    cpp_type (pyOptional x) = cpp_type (.union [x, .noneT]) ∧
    ∃ incs2 us2,
      cpp_type (.union [x, .noneT]) = .ok ("std::optional<" ++ t ++ ">", incs2, us2) := by
  have hloop : cpp_args_loop [x, .noneT]
      = .ok (true, [t], setUnionL incs [], setUnionL us []) := by
    cases x <;>
      first
        | (exfalso
           rw [show cpp_type PyType.noneT
                 = Except.error "Can only use builtins, datetime or BaseModel-derived types, not <class 'NoneType'>"
               from rfl] at h
           exact Except.noConfusion h)
        | simp [cpp_args_loop, h]
  refine ⟨rfl, setUnionL ["<variant>", "<optional>"] (setUnionL incs []), setUnionL us [], ?_⟩
  have hu : cpp_type (.union [x, .noneT])
      = (match cpp_args_loop [x, .noneT] with
         | .error e => .error e
         | .ok r => .ok (args_type_finish "std::variant" r)) := rfl
  rw [hu, hloop]
  rfl

/-- C3 witness: at `X = str`, both shapes resolve to
`std::optional<std::string>`. -/
theorem c3_optional_union_collapse_witness :
    cpp_type (pyOptional .strT) = cpp_type (.union [.strT, .noneT]) ∧
    ∃ incs2 us2,
      cpp_type (.union [.strT, .noneT])
        = .ok ("std::optional<" ++ "std::string" ++ ">", incs2, us2) :=
  c3_optional_union_collapse .strT "std::string" ["<string>"] [] (by decide)

theorem mem_base_field_names {bs : List PyClass} {b : PyClass} (hb : b ∈ bs) {f : String}
    (hf : f ∈ b.fields.map PyField.name) : f ∈ base_field_names bs := by
  have main : ∀ (l : List PyClass) (init : List String),
      (f ∈ init ∨ ∃ b2 ∈ l, f ∈ b2.fields.map PyField.name) →
      f ∈ l.foldl (fun s b2 => setUnionL s (b2.fields.map PyField.name)) init := by
    intro l
    induction l with
    | nil =>
        intro init h
        rcases h with h | ⟨b2, hb2, _⟩
        · exact h
        · cases hb2
    | cons x xs ih =>
        intro init h
        simp only [List.foldl_cons]
        refine ih _ ?_
        rcases h with h | ⟨b2, hb2, hf2⟩
        · exact Or.inl (mem_setUnionL_left h _)
        · rcases List.mem_cons.mp hb2 with rfl | hb3
          · exact Or.inl (mem_setUnionL_right hf2 _)
          · exact Or.inr ⟨b2, hb3, hf2⟩
  exact main bs [] (Or.inr ⟨b, hb, hf⟩)

/-- Every reflected field name appears among the constructor-parameter names
(the loop inserts every field into `names`). -/
theorem mem_names_of_mem_fields {c : PyClass} {a : ClassAttrs} (h : class_attrs c = .ok a)
    {f : String} (hf : f ∈ c.fields.map PyField.name) : f ∈ a.names := by
  obtain ⟨e1, _⟩ := class_attrs_char c a h
  rw [e1]
  obtain ⟨fld, hfld, rfl⟩ := List.mem_map.mp hf
  by_cases htr : field_truthy fld
  · refine List.mem_map.mpr ⟨fld, ?_, rfl⟩
    simp [withDefault, List.mem_filter, hfld, htr]
  · refine List.mem_map.mpr ⟨fld, ?_, rfl⟩
    simp [noDefault, List.mem_filter, hfld, htr]

theorem length_noDefault_add_withDefault (fs : List PyField) :
    (noDefault fs).length + (withDefault fs).length = fs.length := by
  induction fs with
  | nil => rfl
  | cons f rest ih =>
      cases hf : field_truthy f <;>
        simp only [noDefault, withDefault, List.filter_cons, hf] <;>
        simp only [noDefault, withDefault] at ih <;>
        simp <;> omega

theorem class_attrs_types_length {c : PyClass} {a : ClassAttrs}
    (h : class_attrs c = .ok a) : a.types.length = c.fields.length := by
  obtain ⟨_, e2, _⟩ := class_attrs_char c a h
  rw [e2]
  have := length_noDefault_add_withDefault c.fields
  simp only [List.length_map, List.length_append, List.length_reverse]
  omega

theorem generate_module_eq (m : PyModule) :
    generate_module m
      = (match module_collect m.entries with
         | Except.error e => Except.error e
         | Except.ok st => Except.ok (module_output_of m.module_name st)) := rfl

theorem generate_class_none_inv {c : PyClass} (h : generate_class c = .ok none) :
    ∃ a, class_attrs c = .ok a ∧ a.types = [] := by
  cases ha : class_attrs c with
  | error e => simp only [generate_class, ha] at h; exact Except.noConfusion h
  | ok a =>
      simp only [generate_class, ha] at h
      by_cases hemp : a.types = []
      · exact ⟨a, rfl, hemp⟩
      · rw [if_neg hemp] at h
        simp at h

/-- C4: a field provided by a base record is not redeclared as a member and
gets no accessor, but still appears among the derived record's constructor
parameters and among the arguments of the base-class constructor call. -/
theorem c4_inherited_field_threaded (c : PyClass) (a : ClassAttrs) (b : PyClass) (f : String)
    (h : class_attrs c = .ok a) (hb : b ∈ c.bases)
    (hbf : f ∈ b.fields.map PyField.name) (hcf : f ∈ c.fields.map PyField.name) :
    f ∈ a.names ∧
    (∃ arg ∈ a.constructor_args, arg.name = f) ∧
    (∀ mem ∈ a.struct_members, mem.name ≠ f) ∧
    (∀ acc ∈ a.pydantic_attrs, acc.name ≠ f) ∧
    (∃ args, (b.name, args) ∈ a.base_init ∧ f ∈ args) := by
  have hbase : f ∈ base_field_names c.bases := mem_base_field_names hb hbf
  obtain ⟨e1, e2, e3, e4, e5, e6, e7, e8, e9⟩ := class_attrs_char c a h
  obtain ⟨fld, hfld, hname⟩ := List.mem_map.mp hcf
  refine ⟨mem_names_of_mem_fields h hcf, ?_, ?_, ?_, ?_⟩
  · refine ⟨ctor_of fld, ?_, hname⟩
    rw [e3]
    refine List.mem_map.mpr ⟨fld, ?_, rfl⟩
    by_cases htr : field_truthy fld <;>
      simp [noDefault, withDefault, List.mem_filter, hfld, htr]
  · intro mem hmem hname2
    rw [e5] at hmem
    obtain ⟨fld2, hfld2, rfl⟩ := List.mem_map.mp hmem
    have : fld2 ∈ ownFields (base_field_names c.bases) c.fields := by
      rcases List.mem_append.mp hfld2 with h2 | h2
      · exact List.mem_of_mem_filter (List.mem_reverse.mp h2)
      · exact List.mem_of_mem_filter h2
    have hnotin := List.of_mem_filter this
    simp only [decide_eq_true_eq] at hnotin
    exact hnotin (by rw [show (member_of fld2).name = fld2.name from rfl] at hname2; rw [hname2]; exact hbase)
  · intro acc hacc hname2
    rw [e6] at hacc
    obtain ⟨fld2, hfld2, rfl⟩ := List.mem_map.mp hacc
    have : fld2 ∈ ownFields (base_field_names c.bases) c.fields := by
      rcases List.mem_append.mp hfld2 with h2 | h2
      · exact List.mem_of_mem_filter (List.mem_reverse.mp h2)
      · exact List.mem_of_mem_filter h2
    have hnotin := List.of_mem_filter this
    simp only [decide_eq_true_eq] at hnotin
    exact hnotin (by
      rw [show (acc_of (if c.frozen then ".def_readonly" else ".def_readwrite") c.name fld2).name
            = fld2.name from rfl] at hname2
      rw [hname2]; exact hbase)
  · obtain ⟨ab, hab, habmem⟩ := e9 b hb
    exact ⟨ab.names, habmem, mem_names_of_mem_fields hab hbf⟩

/-- C4 witness: the derived record sharing field `id` with its base keeps `id`
out of its members and accessors but in its constructor parameters and in the
base constructor call. -/
theorem c4_inherited_field_threaded_witness :
    ∃ a, class_attrs derId = Except.ok a ∧
      "id" ∈ a.names ∧
      (∃ arg ∈ a.constructor_args, arg.name = "id") ∧
      (∀ mem ∈ a.struct_members, mem.name ≠ "id") ∧
      (∀ acc ∈ a.pydantic_attrs, acc.name ≠ "id") ∧
      (∃ args, ("Base", args) ∈ a.base_init ∧ "id" ∈ args) := by
  cases h : class_attrs derId with
  | error e =>
      have hok : (class_attrs derId).toOption.isSome = true := by decide
      rw [h] at hok
      simp [Except.toOption] at hok
  | ok a =>
      have hmain := c4_inherited_field_threaded derId a baseId "id" h
        (List.mem_cons_self _ _) (by decide) (by decide)
      exact ⟨a, rfl, hmain.1, hmain.2.1, hmain.2.2.1, hmain.2.2.2.1,
        (show baseId.name = "Base" from rfl) ▸ hmain.2.2.2.2⟩

/-- C5: a record whose reflected field set is empty produces no struct text
and no binding text (`generate_class` returns the `None` quadruple), and the
emitted module is identical with or without the record — a silent skip. -/
theorem c5_empty_record_skipped (c : PyClass) (a : ClassAttrs)
    (h : class_attrs c = .ok a) (hf : c.fields = []) :
    generate_class c = .ok none ∧
    ∀ (mn : String) (pre post : List ModuleEntry),
      generate_module ⟨mn, pre ++ .classE c :: post⟩ = generate_module ⟨mn, pre ++ post⟩ := by
  have htypes : a.types = [] := by
    have := class_attrs_types_length h
    rw [hf] at this
    exact List.eq_nil_of_length_eq_zero this
  have hnone : generate_class c = .ok none := generate_class_ok_none h htypes
  refine ⟨hnone, ?_⟩
  intro mn pre post
  have hcol : module_collect (pre ++ .classE c :: post) = module_collect (pre ++ post) := by
    unfold module_collect
    rw [List.foldlM_append, List.foldlM_append]
    cases hpre : List.foldlM module_step initModState pre with
    | error e => rfl
    | ok st =>
        rw [except_bind_ok, except_bind_ok, List.foldlM_cons, module_step_skip hnone,
          except_bind_ok]
  rw [generate_module_eq, generate_module_eq]
  simp only [hcol]

/-- C5 witness: the fieldless record of `mod5a` is skipped and the emitted
module equals the module without it. -/
theorem c5_empty_record_skipped_witness :
    generate_class emptyRec = .ok none ∧ generate_module mod5a = generate_module mod5b := by
  cases h : class_attrs emptyRec with
  | error e =>
      have hok : (class_attrs emptyRec).toOption.isSome = true := by decide
      rw [h] at hok
      simp [Except.toOption] at hok
  | ok a =>
      obtain ⟨h1, h2⟩ := c5_empty_record_skipped emptyRec a h rfl
      exact ⟨h1, h2 "a.b.m1" [] [.classE intRec]⟩

/-- C6: a field with an unparameterized container type resolves to the
"non parameterised collection" `RuntimeError` naming the offending type, and
generation for the whole module fails, producing no output (the source writes
both files only after the loop, so an exception prevents both writes). -/
theorem c6_bare_container_aborts_module (m : PyModule) (c : PyClass) (fld : PyField)
    (hc : .classE c ∈ m.entries) (hf : fld ∈ c.fields) (hb : isBareContainer fld.type = true) :
    cpp_type fld.type
        = .error ("Cannot use non parameterised collection " ++ bareRepr fld.type
            ++ " as a type") ∧
    ∃ e, generate_module m = .error e := by
  have hcpp : cpp_type fld.type
      = .error ("Cannot use non parameterised collection " ++ bareRepr fld.type
          ++ " as a type") := by
    obtain ⟨nm, ty, df⟩ := fld
    cases ty <;>
      first
        | (rename_i args
           cases args with
           | nil => rfl
           | cons a rest => simp [isBareContainer] at hb)
        | simp [isBareContainer] at hb
  refine ⟨hcpp, ?_⟩
  have hclass : ∃ e, class_attrs c = .error e := by
    cases hca : class_attrs c with
    | error e => exact ⟨e, rfl⟩
    | ok a =>
        obtain ⟨r, hr⟩ := (class_attrs_includes c a hca).1 fld hf
        rw [hcpp] at hr
        exact Except.noConfusion hr
  obtain ⟨e, he⟩ := hclass
  have hstep : ∀ st, ∃ e2, module_step st (.classE c) = .error e2 := by
    intro st
    refine ⟨e, ?_⟩
    simp only [module_step, generate_class, he]
  obtain ⟨e2, he2⟩ := module_fold_error hc hstep initModState
  refine ⟨e2, ?_⟩
  rw [generate_module_eq]
  unfold module_collect
  rw [he2]

/-- C6 witness: a module whose record has a bare `list` field fails with the
naming error, and module generation yields no output. -/
theorem c6_bare_container_aborts_module_witness :
    cpp_type (PyType.pyList [])
        = .error ("Cannot use non parameterised collection " ++ bareRepr (PyType.pyList [])
            ++ " as a type") ∧
    ∃ e, generate_module mod6 = .error e :=
  c6_bare_container_aborts_module mod6 bareListRec ⟨"xs", .pyList [], .missing⟩
    (List.mem_cons_self _ _) (List.mem_cons_self _ _) (by decide)

/-- C7 counterexample: module `a.b.m1` declares a record with a field whose
type is a record declared in the different module `a.b.m2` of the same
package, yet the emitted source contains no `py::module_::import` statement at
all — the filter `include_root not in i` (source line 328) excludes every
include whose path contains the module's own package directory, which covers
same-package siblings, not just the module itself. -/
theorem c7_counterexample :
    (⟨"o", .modelRef "a.b.m2" "Other", .missing⟩ : PyField) ∈ siblingRefRec.fields ∧
    "a.b.m2" ≠ "a.b.m1" ∧
    (generate_module mod71).map ModuleOutput.runtime_imports = .ok [] :=
  ⟨List.mem_cons_self _ _, by decide, by decide⟩

/-- In the emitted source body, every import statement precedes every binding
registration (the `PYBIND11_MODULE` template splices `import_contents` before
the joined `pydantic_defs`). -/
theorem cpp_body_imports_first (out : ModuleOutput) (i j : Nat) (s : String) (b : BindingItem)
    (hi : (cpp_body out)[i]? = some (.importStmt s))
    (hj : (cpp_body out)[j]? = some (.bindingReg b)) : i < j := by
  have hilt : i < (out.runtime_imports.map CppBodyItem.importStmt).length := by
    by_contra hge
    push_neg at hge
    rw [cpp_body, List.getElem?_append_right hge, List.getElem?_map] at hi
    cases hx : out.pydantic_defs[i - (out.runtime_imports.map CppBodyItem.importStmt).length]? with
    | none => rw [hx] at hi; exact Option.noConfusion hi
    | some v =>
        rw [hx] at hi
        simp only [Option.map_some'] at hi
        exact CppBodyItem.noConfusion (Option.some.inj hi)
  have hjge : (out.runtime_imports.map CppBodyItem.importStmt).length ≤ j := by
    by_contra hlt
    push_neg at hlt
    rw [cpp_body, List.getElem?_append_left hlt, List.getElem?_map] at hj
    cases hx : out.runtime_imports[j]? with
    | none => rw [hx] at hj; exact Option.noConfusion hj
    | some v =>
        rw [hx] at hj
        simp only [Option.map_some'] at hj
        exact CppBodyItem.noConfusion (Option.some.inj hj)
  exact Nat.lt_of_lt_of_le hilt hjge

/-- C7 amended: a runtime import is emitted for a record/enum reference
exactly when the referenced header passes the source's filter — it starts with
`'"' + module_root` and does not contain `include_root` as a substring (so
references to modules inside the module's own package emit no import); every
emitted import precedes the module's binding registrations in the source
body. -/
theorem c7_amended_cross_module_import (m : PyModule) (out : ModuleOutput) (c : PyClass)
    (fld : PyField) (M N : String)
    (h : generate_module m = .ok out)
    (hc : .classE c ∈ m.entries) (hf : fld ∈ c.fields)
    (ht : fld.type = .modelRef M N ∨ fld.type = .enumRef M N)
    (hcond : import_cond m.module_name ("\"" ++ pyReplace M "." "/" ++ ".h\"") = true) :
    mk_import_stmt "    " ("\"" ++ pyReplace M "." "/" ++ ".h\"") ∈ out.runtime_imports ∧
    ∀ (i j : Nat) (s : String) (b : BindingItem),
      (cpp_body out)[i]? = some (CppBodyItem.importStmt s) →
      (cpp_body out)[j]? = some (CppBodyItem.bindingReg b) → i < j := by
  rw [generate_module_eq] at h
  cases hcol : module_collect m.entries with
  | error e => rw [hcol] at h; exact Except.noConfusion h
  | ok st =>
      rw [hcol] at h
      have hout : out = module_output_of m.module_name st := (Except.ok.inj h).symm
      refine ⟨?_, fun i j s b hi hj => cpp_body_imports_first out i j s b hi hj⟩
      -- the field's include
      have hfi : field_includes fld = ["\"" ++ pyReplace M "." "/" ++ ".h\""] := by
        rcases ht with ht | ht <;> rw [show field_includes fld
            = (match cpp_type fld.type with
               | Except.ok r => r.2.1
               | Except.error _ => []) from rfl, ht] <;> rfl
      -- the record was emitted
      obtain ⟨r, hr⟩ := module_fold_ok_class hcol hc
      cases r with
      | none =>
          obtain ⟨a, ha, hemp⟩ := generate_class_none_inv hr
          have := class_attrs_types_length ha
          rw [hemp] at this
          have hlen : c.fields.length = 0 := by simpa using this.symm
          rw [List.length_eq_zero] at hlen
          rw [hlen] at hf
          cases hf
      | some v =>
          obtain ⟨sd, bd, inc, us⟩ := v
          obtain ⟨a, ha, _, hinc, _⟩ := generate_class_inv hr
          have hmem1 : ("\"" ++ pyReplace M "." "/" ++ ".h\"") ∈ a.all_includes := by
            refine (class_attrs_includes c a ha).2 fld hf ?_
            rw [hfi]
            exact List.mem_cons_self _ _
          have hmem2 : ("\"" ++ pyReplace M "." "/" ++ ".h\"") ∈ st.includes := by
            refine module_fold_includes_class hcol hc hr ?_
            rw [hinc]
            exact hmem1
          rw [hout]
          show mk_import_stmt "    " _
              ∈ (st.includes.filter (import_cond m.module_name)).map (mk_import_stmt "    ")
          exact List.mem_map.mpr ⟨_, List.mem_filter.mpr ⟨hmem2, hcond⟩, rfl⟩

/-- C7 amended witness: module `a.b.m1` referencing a record of `a.c.m3`
(different package, same root) emits the import of
`a.c.__pybind__.a_c_m3`, before all binding registrations. -/
theorem c7_amended_cross_module_import_witness :
    (∃ out, generate_module mod72 = Except.ok out ∧
      mk_import_stmt "    " ("\"" ++ pyReplace "a.c.m3" "." "/" ++ ".h\"")
        ∈ out.runtime_imports) ∧
    mk_import_stmt "    " ("\"" ++ pyReplace "a.c.m3" "." "/" ++ ".h\"")
      = "    py::module_::import(\"a.c.__pybind__.a_c_m3\");" := by
  refine ⟨?_, by decide⟩
  cases h : generate_module mod72 with
  | error e =>
      have hok : (generate_module mod72).toOption.isSome = true := by decide
      rw [h] at hok
      simp [Except.toOption] at hok
  | ok out =>
      refine ⟨out, rfl, ?_⟩
      exact (c7_amended_cross_module_import mod72 out crossPkgRec
        ⟨"o", .modelRef "a.c.m3" "Other", .missing⟩ "a.c.m3" "Other" h
        (List.mem_cons_self _ _) (List.mem_cons_self _ _) (Or.inl rfl) (by decide)).1

/-- C8 counterexample: a record field of enum type is not a small
scalar/temporal kind, yet its member initializer copies instead of moving —
`class_attrs` additionally excludes `Enum` subclasses (and, via the
`TypeError` fallback, every parameterized generic) from moving. -/
theorem c8_counterexample :
    ∃ a, class_attrs enumFieldRec = Except.ok a ∧
      a.init_args = [⟨"e", false⟩] ∧
      smallScalarTemporal (.enumRef "a.b.m1" "Color") = false := by
  cases h : class_attrs enumFieldRec with
  | error e =>
      have hok : (class_attrs enumFieldRec).toOption.isSome = true := by decide
      rw [h] at hok
      simp [Except.toOption] at hok
  | ok a =>
      have h2 : (class_attrs enumFieldRec).map ClassAttrs.init_args
          = .ok [⟨"e", false⟩] := by decide
      rw [h] at h2
      simp only [Except.map] at h2
      exact ⟨a, rfl, Except.ok.inj h2, by decide⟩

/-- C8 amended: each own stored field is initialized from the constructor
parameter with `std::move` exactly when `field_move` holds of its declared
type — that is, when the type is not a small scalar/temporal kind, not an
`Enum` subclass, and is a plain class (parameterized generic annotations make
`issubclass` raise `TypeError`, which the code catches as "no move"). -/
theorem c8_amended_move_semantics (c : PyClass) (a : ClassAttrs)
    (h : class_attrs c = .ok a) :
    a.init_args
        = ((noDefault (ownFields (base_field_names c.bases) c.fields)).reverse
            ++ withDefault (ownFields (base_field_names c.bases) c.fields)).map init_of ∧
    ∀ t : PyType, field_move t
        = (!(smallScalarTemporal t) && !(isEnumType t) && isPlainClassType t) := by
  refine ⟨(class_attrs_char c a h).2.2.2.1, fun t => ?_⟩
  cases t <;> rfl

/-- C8 amended witness: the `str` field of `strFieldRec` is moved. -/
theorem c8_amended_move_semantics_witness :
    ∃ a, class_attrs strFieldRec = Except.ok a ∧ a.init_args = [⟨"s", true⟩] := by
  cases h : class_attrs strFieldRec with
  | error e =>
      have hok : (class_attrs strFieldRec).toOption.isSome = true := by decide
      rw [h] at hok
      simp [Except.toOption] at hok
  | ok a =>
      refine ⟨a, rfl, ?_⟩
      rw [(c8_amended_move_semantics strFieldRec a h).1]
      decide

theorem ownFields_ne_nil_iff (bfn : List String) (fs : List PyField) :
    ownFields bfn fs ≠ [] ↔ ∃ f ∈ fs, f.name ∉ bfn := by
  unfold ownFields
  rw [Ne, List.filter_eq_nil_iff]
  push_neg
  simp

theorem ordered_own_eq_nil_iff {β : Type} (g : PyField → β) (bfn : List String)
    (fs : List PyField) :
    ((noDefault (ownFields bfn fs)).reverse ++ withDefault (ownFields bfn fs)).map g = []
      ↔ ownFields bfn fs = [] := by
  rw [List.map_eq_nil_iff, List.append_eq_nil, List.reverse_eq_nil_iff]
  constructor
  · rintro ⟨h1, h2⟩
    have hlen := length_noDefault_add_withDefault (ownFields bfn fs)
    rw [h1, h2] at hlen
    exact List.length_eq_zero.mp (by simpa using hlen.symm)
  · rintro h
    rw [h]
    exact ⟨rfl, rfl⟩

/-- C9 counterexample: `derivedB`'s only field (`x`, inherited from `baseA`)
lacks a default, yet the generated struct has no zero-argument constructor and
the binding registers no zero-argument init — `default_init_args` receives
entries only for fields stored in the record itself, so a record whose fields
are all inherited gets no default constructor even though a field lacks a
default. -/
theorem c9_counterexample :
    (∃ f ∈ derivedB.fields, is_missing f.default = true) ∧
    (generate_class derivedB).map
        (Option.map (fun r => (r.1.defaultCtor, r.2.1.hasDefaultInit)))
      = .ok (some (none, false)) := by
  refine ⟨⟨⟨"x", .intT, .missing⟩, List.mem_cons_self _ _, rfl⟩, ?_⟩
  decide

/-- C9 amended: the zero-argument constructor (and the matching
`py::init<>()` binding line) is emitted iff some reflected field lacks a
default AND at least one field is stored by the record itself (not provided by
a base); when emitted, it calls each base's zero-argument constructor and
default-initializes exactly the own stored members, in constructor order. -/
theorem c9_amended_default_ctor (c : PyClass) (sd : StructDef) (bd : BindingDef)
    (inc us : List String) (h : generate_class c = .ok (some (sd, bd, inc, us))) :
    ((sd.defaultCtor ≠ none ∧ bd.hasDefaultInit = true)
        ↔ ((∃ f ∈ c.fields, is_missing f.default = true)
            ∧ ∃ f ∈ c.fields, f.name ∉ base_field_names c.bases)) ∧
    ∀ bn di, sd.defaultCtor = some (bn, di) →
        bn = c.bases.map PyClass.name ∧
        di.map DefInitArg.name
          = ((noDefault (ownFields (base_field_names c.bases) c.fields)).reverse
              ++ withDefault (ownFields (base_field_names c.bases) c.fields)).map
                PyField.name := by
  obtain ⟨a, ha, hty, hinc, hus, hmem, hattr, hctor, hmsg, hbic, hinit, hdc, hhd⟩ :=
    generate_class_inv h
  obtain ⟨_, _, _, _, _, _, e7, e8, _⟩ := class_attrs_char c a ha
  have hany_iff : (c.fields.any fun f => !field_truthy f) = true
      ↔ ∃ f ∈ c.fields, is_missing f.default = true := by
    rw [List.any_eq_true]
    constructor
    · rintro ⟨f, hf, hp⟩
      rw [field_truthy_eq] at hp
      exact ⟨f, hf, by simpa using hp⟩
    · rintro ⟨f, hf, hp⟩
      exact ⟨f, hf, by rw [field_truthy_eq, hp]; rfl⟩
  have hne : a.default_init_args ≠ []
      ↔ ((∃ f ∈ c.fields, is_missing f.default = true)
          ∧ ∃ f ∈ c.fields, f.name ∉ base_field_names c.bases) := by
    rw [e7]
    by_cases hany : (c.fields.any fun f => !field_truthy f) = true
    · rw [if_pos hany]
      rw [Ne, ordered_own_eq_nil_iff, ← Ne, ownFields_ne_nil_iff]
      constructor
      · intro hown
        exact ⟨hany_iff.mp hany, hown⟩
      · rintro ⟨_, hown⟩
        exact hown
    · rw [if_neg hany]
      constructor
      · intro hx
        exact absurd rfl hx
      · rintro ⟨hmiss, _⟩
        exact absurd (hany_iff.mpr hmiss) hany
  constructor
  · constructor
    · rintro ⟨h1, _⟩
      rw [hdc] at h1
      by_cases hE : a.default_init_args = []
      · rw [if_pos hE] at h1
        exact absurd rfl h1
      · exact hne.mp hE
    · intro hrhs
      have hne2 := hne.mpr hrhs
      refine ⟨?_, ?_⟩
      · rw [hdc, if_neg hne2]
        simp
      · rw [hhd]
        simp [hne2]
  · intro bn di hsome
    rw [hdc] at hsome
    by_cases hE : a.default_init_args = []
    · rw [if_pos hE] at hsome
      exact Option.noConfusion hsome
    · rw [if_neg hE] at hsome
      obtain ⟨h1, h2⟩ := Prod.mk.injEq .. ▸ Option.some.inj hsome
      refine ⟨by rw [← h1, e8], ?_⟩
      have hany : (c.fields.any fun f => !field_truthy f) = true := by
        by_contra hany
        rw [e7, if_neg hany] at hE
        exact hE rfl
      rw [← h2, e7, if_pos hany, List.map_map]
      rw [show DefInitArg.name ∘ dinit_of = PyField.name from rfl]

/-- C9 amended witness: `abcRec` has fields lacking defaults and own stored
fields, so both the zero-argument constructor and the `py::init<>()` binding
are emitted. -/
theorem c9_amended_default_ctor_witness :
    ∃ sd bd inc us, generate_class abcRec = Except.ok (some (sd, bd, inc, us)) ∧
      sd.defaultCtor ≠ none ∧ bd.hasDefaultInit = true := by
  cases h : generate_class abcRec with
  | error e =>
      have hok : (generate_class abcRec).toOption.isSome = true := by decide
      rw [h] at hok
      simp [Except.toOption] at hok
  | ok r =>
      cases r with
      | none =>
          have hsome : (generate_class abcRec).map Option.isSome = .ok true := by decide
          rw [h] at hsome
          simp [Except.map] at hsome
      | some v =>
          obtain ⟨sd, bd, inc, us⟩ := v
          have hm := (c9_amended_default_ctor abcRec sd bd inc us h).1
          have hrhs := hm.mpr
            ⟨⟨⟨"a", .intT, .missing⟩, List.mem_cons_self _ _, rfl⟩,
             ⟨⟨"a", .intT, .missing⟩, List.mem_cons_self _ _, by decide⟩⟩
          exact ⟨sd, bd, inc, us, rfl, hrhs.1, hrhs.2⟩

/-- C10: the claim states every emitted `#include` directive operand is
angle-bracketed or double-quoted.  A record with a `list[int]` field puts the
bare string `"vector"` into the include set (source line 122 unions
`("vector",)`, unlike the bracketed `<string>`/`<chrono>`/`<optional>`
elsewhere), so the header of `mod10` contains the malformed directive
`#include vector` (and `optional`, `set`, plus lone characters from the
mapping branch, arise the same way).  The other parts of the claim —
deduplication, exclusion of the module's own header, non-`.h"` group before
the quoted group, each sorted — are how the directives below are ordered. -/
theorem c10_malformed_include_directive :
    (generate_module mod10).map ModuleOutput.include_directives
        = .ok ["#include vector", "#include \"msgpack/msgpack.h\""] ∧
    wellFormedIncludeDirective "#include vector" = false ∧
    wellFormedIncludeDirective "#include \"msgpack/msgpack.h\"" = true := by
  decide

end PydanticBind
